import Mathlib

/-!
Shallow embedding of the in-memory relational engine of `simple-data-core`
(src/lib/rdbms: types.ts, btree.ts, table.ts, database.ts, parser.ts).

Modelling conventions, fixed throughout the file:
* JavaScript's `RowValue = string | number | boolean | null` becomes the
  inductive `RowValue` below.  JavaScript numbers are modelled as `Int`:
  every value exercised by the claims is integral, and no claim depends on
  IEEE-754 behaviour.
* A JavaScript object used as a row (`Row = Record<string, RowValue>`)
  becomes an association list `List (String × RowValue)` whose entry order
  is the object's key-insertion order; assigning to an existing key updates
  the entry in place, matching JavaScript semantics.
* `Map` and `Set` fields become association lists / lists, iterated in
  insertion order, matching JavaScript's `Map`/`Set` iteration order.
* A thrown `Error` becomes `Except.error msg`.  Methods that can both
  mutate their object and throw return `Table × Except String α`, the
  returned `Table` reflecting exactly the mutations applied before the
  throw.
* `String.prototype.localeCompare` is modelled as code-point comparison
  (the spec allows any collation for strings).
* Recursive B-tree procedures carry an explicit fuel argument for
  termination.  Every wrapper passes the node count of the root, which
  strictly exceeds the height of the tree, so the out-of-fuel branch is
  unreachable; it is present only to make the functions total.
-/

/-- Scalar cell values of the engine (types.ts `RowValue`). -/
inductive RowValue where
  | int (n : Int)
  | str (s : String)
  | bool (b : Bool)
  | null
deriving DecidableEq, Repr

/-- A row: column name to value, in object key-insertion order (types.ts `Row`). -/
abbrev Row := List (String × RowValue)

/-- Column types (types.ts `DataType`). -/
inductive DataType where
  | int
  | float
  | boolean
  | string
deriving DecidableEq, Repr

/-- Column definition (types.ts `ColumnDef`); absent optional flags are `false`. -/
structure ColumnDef where
  name : String
  type : DataType
  primaryKey : Bool := false
  unique : Bool := false
  notNull : Bool := false
  autoIncrement : Bool := false
deriving DecidableEq, Repr

/-- Reading `row[key]`: `none` models JavaScript `undefined` (key absent). -/
def lookupRow : Row → String → Option RowValue
  | [], _ => none
  | (k, v) :: rest, key => if k = key then some v else lookupRow rest key

/-- Writing `row[key] = v`: updates the entry in place if the key exists,
otherwise appends it, matching JavaScript object assignment order. -/
def setRow : Row → String → RowValue → Row
  | [], key, v => [(key, v)]
  | (k, w) :: rest, key, v =>
      if k = key then (k, v) :: rest else (k, w) :: setRow rest key v

/-- JavaScript `String(value)` on a `RowValue`. -/
def jsToString : RowValue → String
  | .int n => toString n
  | .str s => s
  | .bool b => if b then "true" else "false"
  | .null => "null"

/-- JavaScript strict equality `===` on `RowValue`s (same type and value). -/
def jsEq : RowValue → RowValue → Bool
  | .int m, .int n => m = n
  | .str a, .str b => a = b
  | .bool a, .bool b => a = b
  | .null, .null => true
  | _, _ => false

/-- Strict equality where the left side may be `undefined` (`none`);
`undefined === v` is false for every defined `v`. -/
def jsEqOpt (o : Option RowValue) (v : RowValue) : Bool :=
  match o with
  | none => false
  | some x => jsEq x v

/-- Strict equality where both sides may be `undefined`;
`undefined === undefined` is true. -/
def jsEqOptOpt : Option RowValue → Option RowValue → Bool
  | none, none => true
  | some a, some b => jsEq a b
  | _, _ => false

/-- Lexicographic code-point comparison of character lists as a sign. -/
def cmpCharList : List Char → List Char → Int
  | [], [] => 0
  | [], _ :: _ => -1
  | _ :: _, [] => 1
  | a :: as, b :: bs =>
      if a.toNat < b.toNat then -1
      else if b.toNat < a.toNat then 1
      else cmpCharList as bs

/-- String comparison as a sign (-1/0/1), modelling `localeCompare`. -/
def cmpString (a b : String) : Int := cmpCharList a.toList b.toList

/-- JavaScript `a < b` on two strings (lexicographic). -/
def jsStrLt (a b : String) : Bool := cmpCharList a.toList b.toList < 0

/-- JavaScript `toUpperCase`, character-wise (kernel-reducible form of
`String.toUpper`). -/
def jsToUpper (s : String) : String := (s.toList.map Char.toUpper).asString

/-- JavaScript `trim`: strips whitespace from both ends. -/
def jsTrim (s : String) : String :=
  ((s.toList.dropWhile Char.isWhitespace).reverse.dropWhile
      Char.isWhitespace).reverse.asString

/-- JavaScript `s.startsWith(c)` for a one-character prefix. -/
def strStartsWith (s : String) (c : Char) : Bool :=
  match s.toList with
  | [] => false
  | a :: _ => a = c

/-- JavaScript `s.endsWith(c)` for a one-character suffix. -/
def strEndsWith (s : String) (c : Char) : Bool :=
  match s.toList.getLast? with
  | none => false
  | some a => a = c

/-- Splits a character list at every occurrence of `c`
(`String.splitOn` semantics). -/
def splitCharAux (c : Char) : List Char → List (List Char)
  | [] => [[]]
  | a :: rest =>
      let r := splitCharAux c rest
      if a = c then [] :: r else (a :: r.headD []) :: r.tail

/-- JavaScript `s.split(c)` for a one-character separator. -/
def splitOnChar (s : String) (c : Char) : List String :=
  (splitCharAux c s.toList).map List.asString

/-!  B-Tree (btree.ts).  `ORDER = 4`. -/

def ORDER : Nat := 4

/-- A B-tree node (btree.ts `BTreeNode`): parallel lists of keys and
position sets, plus children and a leaf flag. -/
inductive BTreeNode where
  | mk (keys : List RowValue) (vals : List (List Nat))
       (children : List BTreeNode) (isLeaf : Bool)

def BTreeNode.keys : BTreeNode → List RowValue
  | .mk k _ _ _ => k

def BTreeNode.vals : BTreeNode → List (List Nat)
  | .mk _ v _ _ => v

def BTreeNode.children : BTreeNode → List BTreeNode
  | .mk _ _ c _ => c

def BTreeNode.isLeaf : BTreeNode → Bool
  | .mk _ _ _ l => l

/-- The `createNode` helper of btree.ts. -/
def createNode (isLeaf : Bool) : BTreeNode := .mk [] [] [] isLeaf

mutual

/-- Node count of a B-tree node; strictly exceeds the height, so it serves
as a sufficient fuel bound for the recursive procedures below. -/
def BTreeNode.size : BTreeNode → Nat
  | .mk _ _ c _ => 1 + sizeNodes c

/-- Total node count of a list of B-tree nodes. -/
def sizeNodes : List BTreeNode → Nat
  | [] => 0
  | n :: rest => BTreeNode.size n + sizeNodes rest

end

/-- The `defaultComparator` of btree.ts: null sorts first, strings by
`localeCompare`, numbers by difference, booleans as 0/1, and any mixed
pair by comparing their string renderings. -/
def defaultComparator : RowValue → RowValue → Int
  | .null, .null => 0
  | .null, _ => -1
  | _, .null => 1
  | .str a, .str b => cmpString a b
  | .int a, .int b => a - b
  | .bool a, .bool b => (if a then (1 : Int) else 0) - (if b then 1 else 0)
  | a, b => cmpString (jsToString a) (jsToString b)

/-- The backwards scan `while (i >= 0 && cmp(key, keys[i]) < 0) i--` of
`insertNonFull`: the greatest index whose key compares ≤ the probe, or -1. -/
def lastGE (key : RowValue) : List RowValue → Int
  | [] => -1
  | k :: rest =>
      let r := lastGE key rest
      if r ≥ 0 then r + 1
      else if defaultComparator key k ≥ 0 then 0 else -1

/-- The forwards scan `while (i < len && cmp(key, keys[i]) > 0) i++` of
`searchNode`/`deleteFromNode`: the first index whose key compares ≥ the
probe, or the length. -/
def firstLE (key : RowValue) : List RowValue → Nat
  | [] => 0
  | k :: rest => if defaultComparator key k > 0 then firstLE key rest + 1 else 0

/-- The `splitChild(parent, index)` of btree.ts, acting on the parent's
three field lists: splits the (full) child at `index` around its median,
keeps the left half in place, promotes the median key/position-set into the
parent at `index`, and inserts the right half at `index + 1`. -/
def splitChild (pk : List RowValue) (pv : List (List Nat))
    (pc : List BTreeNode) (index : Nat) :
    List RowValue × List (List Nat) × List BTreeNode :=
  let child := pc.getD index (createNode true)
  let mid := (ORDER - 1) / 2
  let newNode : BTreeNode :=
    .mk (child.keys.drop (mid + 1)) (child.vals.drop (mid + 1))
        (if child.isLeaf then child.children else child.children.drop (mid + 1))
        child.isLeaf
  let midKey := child.keys.getD mid .null
  let midVal := child.vals.getD mid []
  let left : BTreeNode :=
    .mk (child.keys.take mid) (child.vals.take mid)
        (if child.isLeaf then child.children else child.children.take (mid + 1))
        child.isLeaf
  (pk.insertIdx index midKey, pv.insertIdx index midVal,
   ((pc.set index left).insertIdx (index + 1) newNode))

/-- Adds a row position to the position set at index `i` unless already
present (the idempotent duplicate-key path of `insertNonFull`). -/
def addPosAt (vals : List (List Nat)) (i : Nat) (rowIndex : Nat) :
    List (List Nat) :=
  let cur := vals.getD i []
  if rowIndex ∈ cur then vals else vals.set i (cur ++ [rowIndex])

/-- The recursive `insertNonFull` of btree.ts.  The fuel argument only
bounds the recursion depth; callers pass the node count, which exceeds the
height, so the fuel-exhausted branch (returning the node unchanged) is
unreachable. -/
def insertNonFull : Nat → BTreeNode → RowValue → Nat → BTreeNode
  | 0, node, _, _ => node
  | fuel + 1, node, key, rowIndex =>
      let i := lastGE key node.keys
      if node.isLeaf then
        if i ≥ 0 ∧ defaultComparator key (node.keys.getD i.toNat .null) = 0 then
          .mk node.keys (addPosAt node.vals i.toNat rowIndex) node.children true
        else
          .mk (node.keys.insertIdx (i + 1).toNat key)
              (node.vals.insertIdx (i + 1).toNat [rowIndex]) node.children true
      else
        if i ≥ 0 ∧ defaultComparator key (node.keys.getD i.toNat .null) = 0 then
          .mk node.keys (addPosAt node.vals i.toNat rowIndex) node.children false
        else
          let j := (i + 1).toNat
          if (node.children.getD j (createNode true)).keys.length = ORDER - 1 then
            let (pk, pv, pc) := splitChild node.keys node.vals node.children j
            if defaultComparator key (pk.getD j .null) > 0 then
              .mk pk pv
                 (pc.set (j + 1)
                   (insertNonFull fuel (pc.getD (j + 1) (createNode true)) key rowIndex))
                 false
            else if defaultComparator key (pk.getD j .null) = 0 then
              .mk pk (addPosAt pv j rowIndex) pc false
            else
              .mk pk pv
                 (pc.set j (insertNonFull fuel (pc.getD j (createNode true)) key rowIndex))
                 false
          else
            .mk node.keys node.vals
               (node.children.set j
                 (insertNonFull fuel (node.children.getD j (createNode true)) key rowIndex))
               false

/-- The recursive `searchNode` of btree.ts: exact-match descent returning a
copy of the matching slot's position set, or `[]`. -/
def searchNode : Nat → BTreeNode → RowValue → List Nat
  | 0, _, _ => []
  | fuel + 1, node, key =>
      let i := firstLE key node.keys
      if i < node.keys.length ∧ defaultComparator key (node.keys.getD i .null) = 0 then
        node.vals.getD i []
      else if node.isLeaf then []
      else searchNode fuel (node.children.getD i (createNode true)) key

/-- The recursive `deleteFromNode` of btree.ts: removes one position from
the matching slot; if the slot's position set empties, the key and the slot
are spliced out of the node (no rebalancing, and no child is removed). -/
def deleteFromNode : Nat → BTreeNode → RowValue → Nat → BTreeNode × Bool
  | 0, node, _, _ => (node, false)
  | fuel + 1, node, key, rowIndex =>
      let i := firstLE key node.keys
      if i < node.keys.length ∧ defaultComparator key (node.keys.getD i .null) = 0 then
        let cur := node.vals.getD i []
        if rowIndex ∈ cur then
          let cur' := cur.erase rowIndex
          if cur' = [] then
            (.mk (node.keys.eraseIdx i) (node.vals.eraseIdx i) node.children node.isLeaf,
             true)
          else
            (.mk node.keys (node.vals.set i cur') node.children node.isLeaf, true)
        else (node, false)
      else if node.isLeaf then (node, false)
      else
        let (c, b) := deleteFromNode fuel (node.children.getD i (createNode true)) key rowIndex
        (.mk node.keys node.vals (node.children.set i c) node.isLeaf, b)

/-- The `BTree` class of btree.ts: a root node (the comparator is always
`defaultComparator`, never replaced). -/
structure BTree where
  root : BTreeNode

/-- A fresh tree: an empty leaf root (the `BTree` constructor). -/
def BTree.new : BTree := ⟨createNode true⟩

/-- The public `insert(key, rowIndex)` of btree.ts: proactively splits a
full root, then descends with `insertNonFull`. -/
def BTree.insert (t : BTree) (key : RowValue) (rowIndex : Nat) : BTree :=
  let root := t.root
  if root.keys.length = ORDER - 1 then
    let (pk, pv, pc) := splitChild [] [] [root] 0
    let newRoot : BTreeNode := .mk pk pv pc false
    ⟨insertNonFull newRoot.size newRoot key rowIndex⟩
  else
    ⟨insertNonFull root.size root key rowIndex⟩

/-- The public `search(key)` of btree.ts. -/
def BTree.search (t : BTree) (key : RowValue) : List Nat :=
  searchNode t.root.size t.root key

/-- The public `delete(key, rowIndex)` of btree.ts. -/
def BTree.delete (t : BTree) (key : RowValue) (rowIndex : Nat) : BTree × Bool :=
  let (n, b) := deleteFromNode t.root.size t.root key rowIndex
  (⟨n⟩, b)

/-!  Table store (table.ts). -/

/-- An index registered on a table (table.ts `Index`). -/
structure Index where
  name : String
  column : String
  unique : Bool
  tree : BTree

/-- The `Table` class of table.ts.  `indexes` is the `Map` in insertion
order; `deletedIndices` is the soft-delete `Set` in insertion order (kept
duplicate-free); `autoIncrementCounters` is the per-column counter `Map`. -/
structure Table where
  name : String
  columns : List ColumnDef
  rows : List Row
  indexes : List Index
  autoIncrementCounters : List (String × Int)
  deletedIndices : List Nat

/-- Reading an auto-increment counter; the `!` in the source is sound
because the constructor seeds an entry for every auto-increment column. -/
def getCounter : List (String × Int) → String → Int
  | [], _ => 0
  | (k, v) :: rest, key => if k = key then v else getCounter rest key

/-- Writing an auto-increment counter (`Map.set`). -/
def setCounter : List (String × Int) → String → Int → List (String × Int)
  | [], key, v => [(key, v)]
  | (k, w) :: rest, key, v =>
      if k = key then (k, v) :: rest else (k, w) :: setCounter rest key v

/-- Membership in the soft-delete set. -/
def isDeleted (t : Table) (idx : Nat) : Bool := t.deletedIndices.contains idx

/-- Adding to the soft-delete set (`Set.add`: no duplicates). -/
def addDeleted (l : List Nat) (idx : Nat) : List Nat :=
  if l.contains idx then l else l ++ [idx]

/-- The `createIndex` method of table.ts: rejects a duplicate index name or
an unknown column, then builds a fresh B-tree from all live rows and
registers the index. -/
def Table.createIndex (t : Table) (name column : String)
    (unique : Bool := false) : Except String Table :=
  if t.indexes.any (fun ix => ix.name = name) then
    .error ("Index \"" ++ name ++ "\" already exists")
  else if (t.columns.find? (fun c => c.name = column)).isNone then
    .error ("Column \"" ++ column ++ "\" does not exist in table \"" ++ t.name ++ "\"")
  else
    let tree := (t.rows.enum).foldl
      (fun tr p =>
        if t.deletedIndices.contains p.1 then tr
        else tr.insert ((lookupRow p.2 column).getD .null) p.1)
      BTree.new
    .ok { t with indexes := t.indexes ++ [⟨name, column, unique, tree⟩] }

/-- The `Table` constructor: records the schema, auto-creates a unique
index for every PRIMARY KEY / UNIQUE column, and seeds a zero counter for
every AUTO_INCREMENT column. -/
def Table.new (name : String) (columns : List ColumnDef) : Except String Table :=
  columns.foldlM
    (fun t col => do
      let t ← if col.primaryKey || col.unique then
          t.createIndex ("idx_" ++ name ++ "_" ++ col.name) col.name true
        else pure t
      if col.autoIncrement then
        pure { t with autoIncrementCounters := setCounter t.autoIncrementCounters col.name 0 }
      else pure t)
    { name := name, columns := columns, rows := [], indexes := []
      autoIncrementCounters := [], deletedIndices := [] }

/-- JavaScript `parseInt(s, 10)`: skip leading whitespace, optional sign,
then the longest digit prefix; `none` models `NaN`. -/
def jsParseInt (s : String) : Option Int :=
  let cs := s.toList.dropWhile Char.isWhitespace
  let (sign, cs) : Int × List Char :=
    match cs with
    | '-' :: rest => (-1, rest)
    | '+' :: rest => (1, rest)
    | _ => (1, cs)
  let digits := cs.takeWhile Char.isDigit
  if digits = [] then none
  else some (sign * (digits.foldl (fun a c => a * 10 + (c.toNat - 48)) 0 : Nat))

/-- JavaScript `parseFloat(s)`, restricted to the integral values
representable in this model: the digit prefix is parsed exactly like
`parseInt`; fractional or exponent parts (which no claim exercises) are
outside the `Int` value model. -/
def jsParseFloatInt (s : String) : Option Int := jsParseInt s

/-- JavaScript `Number(s)` (the coercion used by relational operators):
an empty or all-whitespace string is 0; otherwise a full integral parse,
with `none` modelling `NaN`. -/
def jsNumberOfString (s : String) : Option Int :=
  let cs := s.toList.dropWhile Char.isWhitespace
  let cs := (cs.reverse.dropWhile Char.isWhitespace).reverse
  if cs = [] then some 0
  else
    let (sign, ds) : Int × List Char :=
      match cs with
      | '-' :: rest => (-1, rest)
      | '+' :: rest => (1, rest)
      | _ => (1, cs)
    if ds ≠ [] ∧ ds.all Char.isDigit then
      some (sign * (ds.foldl (fun a c => a * 10 + (c.toNat - 48)) 0 : Nat))
    else none

/-- JavaScript `ToNumber` on a defined `RowValue`; `none` models `NaN`. -/
def jsNumber : RowValue → Option Int
  | .int n => some n
  | .bool b => some (if b then 1 else 0)
  | .null => some 0
  | .str s => jsNumberOfString s

/-- JavaScript `a < b` on defined primitives: string/string compares
lexicographically, every other pair numerically with `NaN` making the
comparison false. -/
def jsLtVal : RowValue → RowValue → Bool
  | .str x, .str y => jsStrLt x y
  | a, b =>
      match jsNumber a, jsNumber b with
      | some m, some n => decide (m < n)
      | _, _ => false

/-- JavaScript `a > b`. -/
def jsGtVal (a b : RowValue) : Bool := jsLtVal b a

/-- JavaScript `a <= b` (false when either side coerces to `NaN`). -/
def jsLeVal : RowValue → RowValue → Bool
  | .str x, .str y => !(jsStrLt y x)
  | a, b =>
      match jsNumber a, jsNumber b with
      | some m, some n => decide (m ≤ n)
      | _, _ => false

/-- JavaScript `a >= b`. -/
def jsGeVal (a b : RowValue) : Bool := jsLeVal b a

/-- The SQL LIKE matcher of `evaluateCondition`: the source rewrites `%` to
`.*` and `_` to `.` and runs a case-insensitive full-string regular
expression; the model implements the corresponding wildcard match on
lower-cased strings (patterns containing other regular-expression
metacharacters, which no claim exercises, are treated literally). -/
def likeMatchCore : List Char → List Char → Bool
  | [], [] => true
  | [], _ :: _ => false
  | '%' :: ps, t =>
      likeMatchCore ps t ||
        (match t with
         | [] => false
         | _ :: ts => likeMatchCore ('%' :: ps) ts)
  | '_' :: ps, t =>
      (match t with
       | [] => false
       | _ :: ts => likeMatchCore ps ts)
  | c :: ps, t =>
      (match t with
       | [] => false
       | d :: ts => c = d && likeMatchCore ps ts)
termination_by p t => (p.length, t.length)

/-- Case-insensitive wildcard match of a LIKE pattern against a string. -/
def likeMatches (pattern text : String) : Bool :=
  likeMatchCore (pattern.toList.map Char.toLower) (text.toList.map Char.toLower)

/-- The private `evaluateCondition(rowValue, operator, compareValue)` of
table.ts.  The first argument is an `Option` because the source reads
`row[column]`, which is `undefined` (`none`) when the column is absent. -/
def evaluateCondition (rowValue : Option RowValue) (operator : String)
    (compareValue : RowValue) : Bool :=
  if rowValue = some .null ∨ compareValue = .null then
    if operator = "=" then jsEqOpt rowValue compareValue else false
  else
    if operator = "=" then jsEqOpt rowValue compareValue
    else if operator = "!=" then !(jsEqOpt rowValue compareValue)
    else if operator = ">" then
      match rowValue with
      | some v => jsGtVal v compareValue
      | none => false
    else if operator = "<" then
      match rowValue with
      | some v => jsLtVal v compareValue
      | none => false
    else if operator = ">=" then
      match rowValue with
      | some v => jsGeVal v compareValue
      | none => false
    else if operator = "<=" then
      match rowValue with
      | some v => jsLeVal v compareValue
      | none => false
    else if operator = "LIKE" then
      match rowValue, compareValue with
      | some (.str s), .str p => likeMatches p s
      | _, _ => false
    else false

/-- The private `validateValue(value, type)` of table.ts: null passes
through, otherwise the value is coerced to the column's scalar type, with a
thrown error on coercion failure. -/
def validateValue (value : RowValue) (type : DataType) : Except String RowValue :=
  if value = .null then .ok .null
  else
    match type with
    | .int =>
        match jsParseInt (jsToString value) with
        | some n => .ok (.int n)
        | none => .error ("Invalid integer value: " ++ jsToString value)
    | .float =>
        match jsParseFloatInt (jsToString value) with
        | some n => .ok (.int n)
        | none => .error ("Invalid float value: " ++ jsToString value)
    | .boolean =>
        match value with
        | .bool b => .ok (.bool b)
        | _ =>
            if value = .str "true" ∨ value = .int 1 then .ok (.bool true)
            else if value = .str "false" ∨ value = .int 0 then .ok (.bool false)
            else .error ("Invalid boolean value: " ++ jsToString value)
    | .string => .ok (.str (jsToString value))

/-- The per-column processing loop at the top of `Table.insert`: draws
auto-increment counters, enforces NOT NULL, and coerces each supplied value,
building the dense new row in schema order.  Returns the counters as
mutated up to the point of a throw. -/
def processColumns : List ColumnDef → Row → List (String × Int) →
    List (String × Int) × Except String Row
  | [], _, ctr => (ctr, .ok [])
  | col :: rest, data, ctr =>
      let value := lookupRow data col.name
      let (value, ctr) :=
        if col.autoIncrement ∧ (value = none ∨ value = some .null) then
          let c := getCounter ctr col.name + 1
          (some (RowValue.int c), setCounter ctr col.name c)
        else (value, ctr)
      if col.notNull ∧ (value = none ∨ value = some .null) then
        (ctr, .error ("Column \"" ++ col.name ++ "\" cannot be null"))
      else
        match value with
        | some v =>
            match validateValue v col.type with
            | .error e => (ctr, .error e)
            | .ok v' =>
                match processColumns rest data ctr with
                | (ctr2, .error e) => (ctr2, .error e)
                | (ctr2, .ok r) => (ctr2, .ok ((col.name, v') :: r))
        | none =>
            match processColumns rest data ctr with
            | (ctr2, .error e) => (ctr2, .error e)
            | (ctr2, .ok r) => (ctr2, .ok ((col.name, RowValue.null) :: r))

/-- The unique-constraint check of `Table.insert`: for every unique index,
a non-null new value already present in that index raises the duplicate
error. -/
def checkUniqueIndexes : List Index → Row → Except String Unit
  | [], _ => .ok ()
  | ix :: rest, newRow =>
      if ix.unique then
        let value := (lookupRow newRow ix.column).getD .null
        if value ≠ .null then
          if ix.tree.search value ≠ [] then
            .error ("Duplicate value \"" ++ jsToString value ++
                    "\" for unique column \"" ++ ix.column ++ "\"")
          else checkUniqueIndexes rest newRow
        else checkUniqueIndexes rest newRow
      else checkUniqueIndexes rest newRow

/-- The `insert` method of table.ts: process columns (mutating counters),
check unique indexes, then append the row and insert its key into every
index.  On a throw the returned table carries exactly the mutations made
before the throw (the counters). -/
def Table.insert (t : Table) (data : Row) : Table × Except String Row :=
  match processColumns t.columns data t.autoIncrementCounters with
  | (ctr, .error e) => ({ t with autoIncrementCounters := ctr }, .error e)
  | (ctr, .ok newRow) =>
      match checkUniqueIndexes t.indexes newRow with
      | .error e => ({ t with autoIncrementCounters := ctr }, .error e)
      | .ok _ =>
          let rowIndex := t.rows.length
          let indexes := t.indexes.map fun ix =>
            { ix with tree := ix.tree.insert ((lookupRow newRow ix.column).getD .null) rowIndex }
          ({ t with rows := t.rows ++ [newRow], indexes := indexes,
                    autoIncrementCounters := ctr }, .ok newRow)

/-- The private `findIndexForColumn` of table.ts: the first registered
index on the given column, in map-insertion order. -/
def Table.findIndexForColumn (t : Table) (column : String) : Option Index :=
  t.indexes.find? (fun ix => ix.column = column)

/-- Projection of one row onto the selected column list (`result[col] =
row[col]` for each column present in the row). -/
def projectRow (row : Row) (colsToSelect : List String) : Row :=
  colsToSelect.foldl
    (fun acc col =>
      match lookupRow row col with
      | some v => setRow acc col v
      | none => acc)
    []

/-- The full-scan branch of `selectWhere`/`update`/`delete`: positions of
live rows satisfying the predicate, in row order. -/
def Table.scanPositions (t : Table) (column : String) (operator : String)
    (value : RowValue) : List Nat :=
  (t.rows.enum).filterMap fun p =>
    if ¬ t.deletedIndices.contains p.1 ∧
        evaluateCondition (lookupRow p.2 column) operator value then
      some p.1
    else none

/-- All live positions, in row order (the no-predicate branch of
`update`/`delete`). -/
def Table.livePositions (t : Table) : List Nat :=
  (t.rows.enum).filterMap fun p =>
    if ¬ t.deletedIndices.contains p.1 then some p.1 else none

/-- The `selectWhere` method of table.ts: a B-tree lookup when an index
exists on the column and the operator is `=`, otherwise a full live-row
scan; the chosen positions are then filtered against tombstones and
projected. -/
def Table.selectWhere (t : Table) (column operator : String) (value : RowValue)
    (columns : Option (List String) := none) : List Row :=
  let indices :=
    match t.findIndexForColumn column with
    | some ix => if operator = "=" then ix.tree.search value
                 else t.scanPositions column operator value
    | none => t.scanPositions column operator value
  let colsToSelect := columns.getD (t.columns.map (fun c => c.name))
  (indices.filter (fun idx => ¬ t.deletedIndices.contains idx)).map fun idx =>
    projectRow (t.rows.getD idx []) colsToSelect

/-- JavaScript `whereOp || '='`: `undefined` and the empty string are
falsy and default to `=`. -/
def opOrEq : Option String → String
  | none => "="
  | some s => if s = "" then "=" else s

/-- The shared target-resolution logic at the head of both `update` and
`delete` in table.ts (duplicated verbatim there): an index search when an
index exists on the WHERE column and the raw operator is `=`, otherwise a
live-row scan; with no WHERE column, all live positions. -/
def Table.targetPositions (t : Table) (whereColumn : Option String)
    (whereOp : Option String) (whereValue : Option RowValue) : List Nat :=
  match whereColumn with
  | some wc =>
      match t.findIndexForColumn wc with
      | some ix =>
          if whereOp = some "=" then ix.tree.search (whereValue.getD .null)
          else t.scanPositions wc (opOrEq whereOp) (whereValue.getD .null)
      | none => t.scanPositions wc (opOrEq whereOp) (whereValue.getD .null)
  | none => t.livePositions

/-- The pre-mutation unique check of `Table.update`: for every unique index
whose column is being set to a non-null value, positions already holding
that value outside the update's target set raise the duplicate error. -/
def checkUpdateUnique : List Index → Row → List Nat → Except String Unit
  | [], _, _ => .ok ()
  | ix :: rest, setValues, targets =>
      if ix.unique ∧ (lookupRow setValues ix.column).isSome then
        let newValue := (lookupRow setValues ix.column).getD .null
        if newValue ≠ .null then
          let existing := ix.tree.search newValue
          let otherRows := existing.filter (fun idx => ¬ targets.contains idx)
          if otherRows ≠ [] then
            .error ("Duplicate value \"" ++ jsToString newValue ++
                    "\" for unique column \"" ++ ix.column ++ "\"")
          else checkUpdateUnique rest setValues targets
        else checkUpdateUnique rest setValues targets
      else checkUpdateUnique rest setValues targets

/-- The `Object.entries(setValues)` loop inside `Table.update`: applies
each set value to the row after type coercion (columns not in the schema
are silently skipped); a coercion throw leaves the row updated up to the
failing entry, exactly as the in-place mutation in the source does. -/
def applySetValues : Row → List ColumnDef → Row → Row × Except String Unit
  | [], _, row => (row, .ok ())
  | (col, value) :: rest, cols, row =>
      match cols.find? (fun c => c.name = col) with
      | some cd =>
          match validateValue value cd.type with
          | .error e => (row, .error e)
          | .ok v' => applySetValues rest cols (setRow row col v')
      | none => applySetValues rest cols row

/-- The per-position mutation loop of `Table.update`: skips tombstoned
positions, captures old values of indexed columns being changed, applies
the coerced set values, and re-keys every affected index (delete the old
key/position pair, insert the new).  A mid-loop coercion throw returns the
table as mutated so far. -/
def updateLoop : List Nat → Table → Row → Nat → Table × Except String Nat
  | [], t, _, count => (t, .ok count)
  | idx :: rest, t, setValues, count =>
      if t.deletedIndices.contains idx then updateLoop rest t setValues count
      else
        let row := t.rows.getD idx []
        let oldValues := t.indexes.foldl
          (fun acc ix =>
            if (lookupRow setValues ix.column).isSome then
              setRow acc ix.column ((lookupRow row ix.column).getD .null)
            else acc)
          ([] : Row)
        match applySetValues setValues t.columns row with
        | (row', .error e) => ({ t with rows := t.rows.set idx row' }, .error e)
        | (row', .ok _) =>
            let indexes := t.indexes.map fun ix =>
              if (lookupRow setValues ix.column).isSome then
                let tr := (ix.tree.delete ((lookupRow oldValues ix.column).getD .null) idx).1
                { ix with tree := tr.insert ((lookupRow row' ix.column).getD .null) idx }
              else ix
            updateLoop rest
              { t with rows := t.rows.set idx row', indexes := indexes }
              setValues (count + 1)

/-- The `update` method of table.ts: resolve target positions, run the
unique pre-check (throwing with no mutation), then mutate each target row
and its index entries, returning the affected-row count. -/
def Table.update (t : Table) (setValues : Row)
    (whereColumn : Option String := none) (whereOp : Option String := none)
    (whereValue : Option RowValue := none) : Table × Except String Nat :=
  let indicesToUpdate := t.targetPositions whereColumn whereOp whereValue
  match checkUpdateUnique t.indexes setValues indicesToUpdate with
  | .error e => (t, .error e)
  | .ok _ => updateLoop indicesToUpdate t setValues 0

/-- The per-position loop of `Table.delete`: removes the row's key from
every index, then tombstones the position. -/
def deleteLoop : List Nat → Table → Nat → Table × Nat
  | [], t, count => (t, count)
  | idx :: rest, t, count =>
      if t.deletedIndices.contains idx then deleteLoop rest t count
      else
        let row := t.rows.getD idx []
        let indexes := t.indexes.map fun ix =>
          { ix with tree := (ix.tree.delete ((lookupRow row ix.column).getD .null) idx).1 }
        deleteLoop rest
          { t with indexes := indexes,
                   deletedIndices := addDeleted t.deletedIndices idx }
          (count + 1)

/-- The `delete` method of table.ts: resolve target positions exactly as
`update` does, then de-index and tombstone each, returning the count. -/
def Table.delete (t : Table) (whereColumn : Option String := none)
    (whereOp : Option String := none) (whereValue : Option RowValue := none) :
    Table × Nat :=
  deleteLoop (t.targetPositions whereColumn whereOp whereValue) t 0

/-- The `getRowCount` method of table.ts. -/
def Table.getRowCount (t : Table) : Nat :=
  t.rows.length - t.deletedIndices.length

/-- The `getRows` method of table.ts: all live rows, in position order. -/
def Table.getRows (t : Table) : List Row :=
  (t.rows.enum).filterMap fun p =>
    if t.deletedIndices.contains p.1 then none else some p.2

/-!  Parsed-query AST (types.ts) and the query executor (database.ts). -/

/-- One WHERE clause (types.ts `WhereClause`); `connector` is the AND/OR
token recorded after the clause, if any. -/
structure WhereClause where
  column : String
  operator : String
  value : RowValue
  connector : Option String := none
deriving DecidableEq, Repr

/-- Join kinds (types.ts `JoinClause.type`). -/
inductive JoinType where
  | INNER
  | LEFT
  | RIGHT
deriving DecidableEq, Repr

/-- One JOIN clause (types.ts `JoinClause`). -/
structure JoinClause where
  type : JoinType
  table : String
  leftColumn : String
  rightColumn : String
deriving DecidableEq, Repr

/-- One ORDER BY key (types.ts); `direction` is `"ASC"` or `"DESC"`. -/
structure OrderBySpec where
  column : String
  direction : String
deriving DecidableEq, Repr

/-- SELECT AST (types.ts `SelectQuery`).  `columns = none` models `'*'`;
`fromTable`/`whereList` rename the source's `from`/`where` fields, which
are Lean keywords. -/
structure SelectQuery where
  columns : Option (List String)
  fromTable : String
  joins : Option (List JoinClause) := none
  whereList : Option (List WhereClause) := none
  orderBy : Option (List OrderBySpec) := none
  limit : Option Int := none
deriving Repr

/-- INSERT AST (types.ts `InsertQuery`). -/
structure InsertQuery where
  into : String
  columns : List String
  values : List (List RowValue)
deriving Repr

/-- UPDATE AST (types.ts `UpdateQuery`). -/
structure UpdateQuery where
  table : String
  set : Row
  whereList : Option (List WhereClause) := none
deriving Repr

/-- DELETE AST (types.ts `DeleteQuery`). -/
structure DeleteQuery where
  fromTable : String
  whereList : Option (List WhereClause) := none
deriving Repr

/-- CREATE TABLE AST (types.ts `CreateTableQuery`). -/
structure CreateTableQuery where
  table : String
  columns : List ColumnDef
deriving Repr

/-- DROP TABLE AST (types.ts `DropTableQuery`). -/
structure DropTableQuery where
  table : String
deriving Repr

/-- CREATE INDEX AST (types.ts `CreateIndexQuery`). -/
structure CreateIndexQuery where
  name : String
  table : String
  column : String
  unique : Bool
deriving Repr

/-- The closed variant set of parsed queries (types.ts `ParsedQuery`). -/
inductive ParsedQuery where
  | select (q : SelectQuery)
  | insert (q : InsertQuery)
  | update (q : UpdateQuery)
  | delete (q : DeleteQuery)
  | createTable (q : CreateTableQuery)
  | dropTable (q : DropTableQuery)
  | createIndex (q : CreateIndexQuery)
deriving Repr

/-- Query result record (types.ts `QueryResult`).  The wall-clock
`executionTime` field is not modelled. -/
structure QueryResult where
  success : Bool
  message : Option String := none
  rows : Option (List Row) := none
  rowCount : Option Nat := none
  columns : Option (List String) := none
deriving Repr

/-- The `Database` class of database.ts: a name → `Table` map in insertion
order. -/
structure Database where
  name : String
  tables : List (String × Table)

/-- Reading `this.tables.get(name)`. -/
def Database.getTable (db : Database) (name : String) : Option Table :=
  (db.tables.find? (fun p => p.1 = name)).map Prod.snd

/-- Writing `this.tables.set(name, t)`. -/
def Database.setTable (db : Database) (name : String) (t : Table) : Database :=
  if db.tables.any (fun p => p.1 = name) then
    { db with tables := db.tables.map (fun p => if p.1 = name then (p.1, t) else p) }
  else
    { db with tables := db.tables ++ [(name, t)] }

/-- The private `evaluateClause` body of database.ts on an already-read row
value (the source duplicates `Table.evaluateCondition` verbatim; the
duplicate is modelled separately to mirror the source). -/
def evaluateClauseVal (rowValue : Option RowValue) (operator : String)
    (compareValue : RowValue) : Bool :=
  if rowValue = some .null ∨ compareValue = .null then
    if operator = "=" then jsEqOpt rowValue compareValue else false
  else
    if operator = "=" then jsEqOpt rowValue compareValue
    else if operator = "!=" then !(jsEqOpt rowValue compareValue)
    else if operator = ">" then
      match rowValue with
      | some v => jsGtVal v compareValue
      | none => false
    else if operator = "<" then
      match rowValue with
      | some v => jsLtVal v compareValue
      | none => false
    else if operator = ">=" then
      match rowValue with
      | some v => jsGeVal v compareValue
      | none => false
    else if operator = "<=" then
      match rowValue with
      | some v => jsLeVal v compareValue
      | none => false
    else if operator = "LIKE" then
      match rowValue, compareValue with
      | some (.str s), .str p => likeMatches p s
      | _, _ => false
    else false

/-- The private `evaluateClause(row, clause)` of database.ts. -/
def Database.evaluateClause (row : Row) (clause : WhereClause) : Bool :=
  evaluateClauseVal (lookupRow row clause.column) clause.operator clause.value

/-- The left-to-right connector fold inside `applyWhere`: each clause is
combined with the running result using the connector recorded on the
previous clause (`OR` folds with or, anything else with and). -/
def whereGo (row : Row) : Bool → Option String → List WhereClause → Bool
  | result, _, [] => result
  | result, conn, c :: rest =>
      let clauseResult := Database.evaluateClause row c
      let result := if conn = some "OR" then result || clauseResult
                    else result && clauseResult
      whereGo row result c.connector rest

/-- The private `applyWhere(rows, where)` of database.ts.  Callers
guarantee a non-empty clause list; on `[]` (where the source would fault
reading `where[0]`) the model returns the rows unchanged. -/
def applyWhere (rows : List Row) (whereList : List WhereClause) : List Row :=
  match whereList with
  | [] => rows
  | w :: rest =>
      rows.filter fun row =>
        whereGo row (Database.evaluateClause row w) w.connector rest

/-- One side's contribution to a joined row: each column is written both
unqualified and as `tableName.column`, in entry order, with JavaScript
object-assignment (last-writer-wins in place) semantics. -/
def combineInto (combined : Row) (tableName : String) (row : Row) : Row :=
  row.foldl
    (fun acc kv => setRow (setRow acc kv.1 kv.2) (tableName ++ "." ++ kv.1) kv.2)
    combined

/-- The inner loop of `performJoin` for one left row: matched combined
rows in right-row order, plus the matched flag. -/
def joinMatches (leftRow : Row) (rightRows : List Row) (lc rc ln rn : String) :
    List Row × Bool :=
  rightRows.foldl
    (fun acc rightRow =>
      if jsEqOptOpt (lookupRow leftRow lc) (lookupRow rightRow rc) then
        (acc.1 ++ [combineInto (combineInto [] ln leftRow) rn rightRow], true)
      else acc)
    ([], false)

/-- The nested-loop body of `performJoin` (INNER or LEFT): for each left
row, emit one combined row per match; under LEFT, an unmatched left row
emits one row holding only the left side's (unqualified and qualified)
columns. -/
def performJoinLoop (leftRows rightRows : List Row) (isLeftJoin : Bool)
    (lc rc ln rn : String) : List Row :=
  leftRows.foldl
    (fun acc leftRow =>
      let ms := (joinMatches leftRow rightRows lc rc ln rn).1
      let matched := (joinMatches leftRow rightRows lc rc ln rn).2
      acc ++ ms ++
        (if ¬ matched ∧ isLeftJoin then [combineInto [] ln leftRow] else []))
    []

/-- The private `performJoin` of database.ts.  A RIGHT join re-enters the
procedure as a LEFT join with operands, columns and table names swapped;
the model unfolds that single-step recursion. -/
def performJoin (leftRows rightRows : List Row) (join : JoinClause)
    (leftTableName rightTableName : String) : List Row :=
  match join.type with
  | .RIGHT =>
      performJoinLoop rightRows leftRows true join.rightColumn join.leftColumn
        rightTableName leftTableName
  | .LEFT =>
      performJoinLoop leftRows rightRows true join.leftColumn join.rightColumn
        leftTableName rightTableName
  | .INNER =>
      performJoinLoop leftRows rightRows false join.leftColumn join.rightColumn
        leftTableName rightTableName

/-- The per-key comparison inside `applyOrderBy`: null first, strings by
`localeCompare`, numbers by difference, and every other combination
(including booleans and mixed types) ties at 0. -/
def orderKeyCmp (aVal bVal : Option RowValue) : Int :=
  if aVal = some .null ∧ bVal = some .null then 0
  else if aVal = some .null then -1
  else if bVal = some .null then 1
  else
    match aVal, bVal with
    | some (.str x), some (.str y) => cmpString x y
    | some (.int m), some (.int n) => m - n
    | _, _ => 0

/-- The multi-key comparator of `applyOrderBy`: the first key whose
comparison is non-zero decides (negated under DESC); ties fall through to
the next key, and 0 results if every key ties. -/
def rowCompare (orderBy : List OrderBySpec) (a b : Row) : Int :=
  match orderBy with
  | [] => 0
  | o :: rest =>
      let comparison := orderKeyCmp (lookupRow a o.column) (lookupRow b o.column)
      if comparison ≠ 0 then
        if o.direction = "DESC" then -comparison else comparison
      else rowCompare rest a b

/-- The private `applyOrderBy` of database.ts: `[...rows].sort(cmp)`.
ECMAScript requires `Array.prototype.sort` to be stable, so the model uses
the stable `List.mergeSort` with the same comparator. -/
def applyOrderBy (rows : List Row) (orderBy : List OrderBySpec) : List Row :=
  rows.mergeSort (fun a b => rowCompare orderBy a b ≤ 0)

/-- JavaScript `rows.slice(0, limit)`: a negative limit drops that many
entries from the end. -/
def jsSliceTo (rows : List Row) (limit : Int) : List Row :=
  if 0 ≤ limit then rows.take limit.toNat
  else rows.take (rows.length - limit.natAbs)

/-- The `createTable` handler of database.ts.  The `Table` constructor can
throw (duplicate auto-index names); that throw propagates out of the
handler (caught only at the `execute` boundary), hence the `Except` on the
result. -/
def Database.createTable (db : Database) (query : CreateTableQuery) :
    Database × Except String QueryResult :=
  if (db.getTable query.table).isSome then
    (db, .ok { success := false,
               message := some ("Table \"" ++ query.table ++ "\" already exists") })
  else
    match Table.new query.table query.columns with
    | .error e => (db, .error e)
    | .ok t =>
        (db.setTable query.table t,
         .ok { success := true,
               message := some ("Table \"" ++ query.table ++ "\" created successfully") })

/-- The `dropTable` handler of database.ts. -/
def Database.dropTable (db : Database) (query : DropTableQuery) :
    Database × Except String QueryResult :=
  if (db.getTable query.table).isNone then
    (db, .ok { success := false,
               message := some ("Table \"" ++ query.table ++ "\" does not exist") })
  else
    ({ db with tables := db.tables.filter (fun p => p.1 ≠ query.table) },
     .ok { success := true,
           message := some ("Table \"" ++ query.table ++ "\" dropped successfully") })

/-- The `createIndex` handler of database.ts: a `Table.createIndex` throw
is caught inside the handler and reported as a failed result. -/
def Database.createIndex (db : Database) (query : CreateIndexQuery) :
    Database × Except String QueryResult :=
  match db.getTable query.table with
  | none =>
      (db, .ok { success := false,
                 message := some ("Table \"" ++ query.table ++ "\" does not exist") })
  | some t =>
      match t.createIndex query.name query.column query.unique with
      | .error e => (db, .ok { success := false, message := some e })
      | .ok t' =>
          (db.setTable query.table t',
           .ok { success := true,
                 message := some ("Index \"" ++ query.name ++ "\" created on " ++
                                  query.table ++ "(" ++ query.column ++ ")") })

/-- Builds the partial-row argument for one INSERT tuple: named columns
when a column list is present, otherwise the schema columns positionally
(`zip` truncates at the shorter list, which matches the source because an
out-of-range tuple entry is `undefined` and `undefined` behaves as an
absent key inside `Table.insert`). -/
def insertData (query : InsertQuery) (t : Table) (valueRow : List RowValue) : Row :=
  if query.columns.length > 0 then query.columns.zip valueRow
  else (t.columns.map (fun c => c.name)).zip valueRow

/-- The tuple loop of the `insert` handler: inserts each tuple in order,
stopping at the first throw; the table keeps every mutation applied before
the throw (partial multi-row application). -/
def insertLoop (query : InsertQuery) :
    List (List RowValue) → Table → List Row → Table × Except String (List Row)
  | [], t, acc => (t, .ok acc)
  | valueRow :: rest, t, acc =>
      match t.insert (insertData query t valueRow) with
      | (t', .error e) => (t', .error e)
      | (t', .ok row) => insertLoop query rest t' (acc ++ [row])

/-- The `insert` handler of database.ts: resolves the table, inserts every
tuple, and catches a thrown constraint error as a failed result (keeping
the partially mutated table registered). -/
def Database.insert (db : Database) (query : InsertQuery) :
    Database × Except String QueryResult :=
  match db.getTable query.into with
  | none =>
      (db, .ok { success := false,
                 message := some ("Table \"" ++ query.into ++ "\" does not exist") })
  | some t =>
      match insertLoop query query.values t [] with
      | (t', .error e) =>
          (db.setTable query.into t', .ok { success := false, message := some e })
      | (t', .ok insertedRows) =>
          (db.setTable query.into t',
           .ok { success := true,
                 message := some ("Inserted " ++ toString insertedRows.length ++ " row(s)"),
                 rowCount := some insertedRows.length,
                 rows := some insertedRows })

/-- The JOIN loop of the `select` handler: applies each join in turn,
returning the failed result early when a joined table is missing. -/
def applyJoins (db : Database) (fromName : String) :
    List Row → List JoinClause → Except QueryResult (List Row)
  | rows, [] => .ok rows
  | rows, join :: rest =>
      match db.getTable join.table with
      | none =>
          .error { success := false,
                   message := some ("Table \"" ++ join.table ++ "\" does not exist") }
      | some joinTable =>
          applyJoins db fromName
            (performJoin rows joinTable.getRows join fromName join.table) rest

/-- The column-projection step of the `select` handler: for each requested
column, the unqualified key is copied when present, otherwise the
`table.column` form falls back to its bare column name. -/
def projectSelected (columns : List String) (row : Row) : Row :=
  columns.foldl
    (fun acc col =>
      match lookupRow row col with
      | some v => setRow acc col v
      | none =>
          let simpleName := (splitOnChar col '.').getLastD ""
          match lookupRow row simpleName with
          | some v => setRow acc col v
          | none => acc)
    []

/-- The `select` handler of database.ts: base rows (predicate-filtered when
a WHERE list is present), then joins, then projection, then ORDER BY, then
LIMIT, in that fixed order. -/
def Database.select (db : Database) (query : SelectQuery) :
    Database × Except String QueryResult :=
  match db.getTable query.fromTable with
  | none =>
      (db, .ok { success := false,
                 message := some ("Table \"" ++ query.fromTable ++ "\" does not exist") })
  | some t =>
      let rows :=
        match query.whereList with
        | some (w :: ws) => applyWhere t.getRows (w :: ws)
        | _ => t.getRows
      match applyJoins db query.fromTable rows ((query.joins).getD []) with
      | .error r => (db, .ok r)
      | .ok rows =>
          let rows :=
            match query.columns with
            | some cols => rows.map (projectSelected cols)
            | none => rows
          let rows :=
            match query.orderBy with
            | some (o :: os) => applyOrderBy rows (o :: os)
            | _ => rows
          let rows :=
            match query.limit with
            | some n => jsSliceTo rows n
            | none => rows
          (db, .ok { success := true,
                     rows := some rows,
                     rowCount := some rows.length,
                     columns := some ((rows.headD []).map Prod.fst) })

/-- The `update` handler of database.ts: when a WHERE list is present only
its first clause is forwarded to `Table.update`; a thrown constraint or
coercion error is caught as a failed result, keeping the partially mutated
table registered. -/
def Database.update (db : Database) (query : UpdateQuery) :
    Database × Except String QueryResult :=
  match db.getTable query.table with
  | none =>
      (db, .ok { success := false,
                 message := some ("Table \"" ++ query.table ++ "\" does not exist") })
  | some t =>
      let r :=
        match query.whereList with
        | some (clause :: _) =>
            t.update query.set (some clause.column) (some clause.operator) (some clause.value)
        | _ => t.update query.set
      match r with
      | (t', .error e) =>
          (db.setTable query.table t', .ok { success := false, message := some e })
      | (t', .ok count) =>
          (db.setTable query.table t',
           .ok { success := true,
                 message := some ("Updated " ++ toString count ++ " row(s)"),
                 rowCount := some count })

/-- The `deleteRows` handler of database.ts: when a WHERE list is present
only its first clause is forwarded to `Table.delete`. -/
def Database.deleteRows (db : Database) (query : DeleteQuery) :
    Database × Except String QueryResult :=
  match db.getTable query.fromTable with
  | none =>
      (db, .ok { success := false,
                 message := some ("Table \"" ++ query.fromTable ++ "\" does not exist") })
  | some t =>
      let r :=
        match query.whereList with
        | some (clause :: _) =>
            t.delete (some clause.column) (some clause.operator) (some clause.value)
        | _ => t.delete
      (db.setTable query.fromTable r.1,
       .ok { success := true,
             message := some ("Deleted " ++ toString r.2 ++ " row(s)"),
             rowCount := some r.2 })

/-- The private `executeQuery` dispatch of database.ts. -/
def Database.executeQuery (db : Database) (query : ParsedQuery) :
    Database × Except String QueryResult :=
  match query with
  | .createTable q => db.createTable q
  | .dropTable q => db.dropTable q
  | .createIndex q => db.createIndex q
  | .insert q => db.insert q
  | .select q => db.select q
  | .update q => db.update q
  | .delete q => db.deleteRows q

/-!  SQL tokenizer and parser (parser.ts).

The parser's `do … while` loops do not terminate on some malformed inputs
(at end of input `peek()` returns null forever and `next()` consumes
nothing), so every loop below carries an explicit fuel argument and the
parser's result type has a `div` constructor meaning "still looping after
that much fuel".  A `parse` call that diverges in the source is exactly one
that yields `div` for every fuel value. -/

/-- Tokenizer state (parser.ts `Tokenizer`): the trimmed input and the
current scan position. -/
structure Tok where
  input : List Char
  pos : Nat
deriving DecidableEq, Repr

/-- The `Tokenizer` constructor: trims the SQL text. -/
def Tok.ofString (sql : String) : Tok := ⟨(jsTrim sql).toList, 0⟩

/-- A word-token character: `[a-zA-Z0-9_.]`. -/
def isWordChar (c : Char) : Bool :=
  c.isAlphanum || c = '_' || c = '.'

/-- The private `skipWhitespace` of the tokenizer (advances `pos` past
whitespace, persistently). -/
def Tok.skipWs (t : Tok) : Tok :=
  { t with pos := t.pos + ((t.input.drop t.pos).takeWhile Char.isWhitespace).length }

/-- Scans for the closing quote of a string literal, skipping a character
after each backslash; returns the index of the closing quote (or past the
end when unterminated).  The fuel argument (instantiated with more than the
input length) only bounds the scan. -/
def scanStringEnd (input : List Char) (quote : Char) : Nat → Nat → Nat
  | e, 0 => e
  | e, fuel + 1 =>
      if e < input.length ∧ input.getD e ' ' ≠ quote then
        scanStringEnd input quote
          (if input.getD e ' ' = '\\' then e + 2 else e + 1) fuel
      else e

/-- The private `peekString` of the tokenizer: the whole quoted literal
including its quotes (clamped at the end of input when unterminated). -/
def Tok.peekString (t : Tok) : String :=
  let quote := t.input.getD t.pos ' '
  let e := scanStringEnd t.input quote (t.pos + 1) (t.input.length + 2)
  ((t.input.drop t.pos).take (e + 1 - t.pos)).asString

/-- The `peek` method: skips whitespace (a persistent state change), then
returns the next token without consuming it — `none` at end of input, a
quoted literal, a two-character operator, a single-character operator, or a
(possibly empty) word token. -/
def Tok.peek (t : Tok) : Tok × Option String :=
  let t := t.skipWs
  if t.pos ≥ t.input.length then (t, none)
  else
    let c := t.input.getD t.pos ' '
    if c = '\'' ∨ c = '"' then (t, some t.peekString)
    else
      let twoChar := ((t.input.drop t.pos).take 2).asString
      if twoChar = "!=" ∨ twoChar = ">=" ∨ twoChar = "<=" ∨ twoChar = "<>" then
        (t, some twoChar)
      else if c = '(' ∨ c = ')' ∨ c = ',' ∨ c = '*' ∨ c = '=' ∨ c = '<' ∨
              c = '>' ∨ c = ';' then
        (t, some (String.mk [c]))
      else
        (t, some ((t.input.drop t.pos).takeWhile isWordChar).asString)

/-- The `next` method: peek, then advance past the token.  JavaScript's
`if (token)` guard means a `null` or empty-string token consumes nothing. -/
def Tok.next (t : Tok) : Tok × Option String :=
  let (t, token) := t.peek
  match token with
  | none => (t, none)
  | some s => if s = "" then (t, some "") else ({ t with pos := t.pos + s.length }, some s)

/-- The `hasMore` method: input remains and the next character is not a
semicolon (after a persistent whitespace skip). -/
def Tok.hasMore (t : Tok) : Tok × Bool :=
  let t := t.skipWs
  (t, decide (t.pos < t.input.length) && (t.input.getD t.pos ' ' ≠ ';'))

/-- Renders a token for the error-message interpolations of the source,
where a missing token is JavaScript `null`. -/
def bangStr (o : Option String) : String := o.getD "null"

/-- Parser results: success with the consumed state, a thrown syntax
error, or `div` — the corresponding source loop is still running after the
given fuel. -/
inductive PRes (α : Type) where
  | ok (a : α) (t : Tok)
  | err (e : String)
  | div

/-- The `expect` method: consume one token and require it (case-folded) to
match. -/
def Tok.expect (t : Tok) (expected : String) : PRes Unit :=
  let (t, token) := t.next
  match token with
  | some s =>
      if jsToUpper s = jsToUpper expected then .ok () t
      else .err ("Expected \"" ++ expected ++ "\" but got \"" ++ s ++ "\"")
  | none => .err ("Expected \"" ++ expected ++ "\" but got \"null\"")

/-- The `parseValue` helper of parser.ts: quoted text, case-insensitive
TRUE/FALSE/NULL, a numeric literal, or the raw token as a string. -/
def parseValue (token : String) : RowValue :=
  if (strStartsWith token '\'' && strEndsWith token '\'') ||
     (strStartsWith token '"' && strEndsWith token '"') then
    .str ((token.toList.drop 1).dropLast.asString)
  else if jsToUpper token = "TRUE" then .bool true
  else if jsToUpper token = "FALSE" then .bool false
  else if jsToUpper token = "NULL" then .null
  else
    match jsParseFloatInt token with
    | some n => .int n
    | none => .str token

/-- The error thrown when `parseValue(tokenizer.next()!)` is reached with
no token left: the non-null assertion lets `null` through and
`token.startsWith` then throws a TypeError. -/
def nullTokenError : String :=
  "Cannot read properties of null (reading 'startsWith')"

/-- Functorial action on parser results. -/
def PRes.map (f : α → β) : PRes α → PRes β
  | .ok a t => .ok (f a) t
  | .err e => .err e
  | .div => .div

/-- Records a connector token on the last parsed clause
(`clauses[clauses.length - 1].connector = connector`). -/
def setLastConnector : List WhereClause → String → List WhereClause
  | [], _ => []
  | [c], conn => [{ c with connector := some conn }]
  | c :: rest, conn => c :: setLastConnector rest conn

/-- The clause loop of `parseWhere`: from the second clause on, a
connector token (AND/OR, anything else throws) is recorded on the previous
clause; then column, operator (LIKE case-folded, `<>` aliased to `!=`) and
value are consumed; the loop continues while more input follows and the
next token is AND/OR. -/
def whereClausesLoop : Nat → Tok → List WhereClause → PRes (List WhereClause)
  | 0, _, _ => .div
  | fuel + 1, t, clauses =>
      let step : PRes (List WhereClause) :=
        if clauses.isEmpty then .ok clauses t
        else
          let (t, tok) := t.next
          match tok.map jsToUpper with
          | some "AND" => .ok (setLastConnector clauses "AND") t
          | some "OR" => .ok (setLastConnector clauses "OR") t
          | some c => .err ("Expected AND/OR but got \"" ++ c ++ "\"")
          | none => .err ("Expected AND/OR but got \"undefined\"")
      match step with
      | .err e => .err e
      | .div => .div
      | .ok clauses t =>
          let (t, columnTok) := t.next
          let column := bangStr columnTok
          let (t, opTok) := t.next
          match opTok with
          | none => .err "Cannot read properties of null (reading 'toUpperCase')"
          | some operator0 =>
              let operator :=
                if jsToUpper operator0 = "LIKE" then "LIKE"
                else if operator0 = "<>" then "!=" else operator0
              let (t, valTok) := t.next
              match valTok with
              | none => .err nullTokenError
              | some vs =>
                  let clauses := clauses ++
                    [{ column := column, operator := operator, value := parseValue vs }]
                  let (t, more) := t.hasMore
                  let (t, pk) := t.peek
                  let up := pk.map jsToUpper
                  if more ∧ (up = some "AND" ∨ up = some "OR") then
                    whereClausesLoop fuel t clauses
                  else .ok clauses t

/-- The `parseWhere` function of parser.ts. -/
def parseWhere (fuel : Nat) (t : Tok) : PRes (List WhereClause) :=
  match t.expect "WHERE" with
  | .err e => .err e
  | .div => .div
  | .ok _ t => whereClausesLoop fuel t []

/-- The column-list loop of `parseSelect` (non-`*` case). -/
def selectColumnsLoop : Nat → Tok → List String → PRes (List String)
  | 0, _, _ => .div
  | fuel + 1, t, cols =>
      let (t, pk) := t.peek
      let t := if pk = some "," then (t.next).1 else t
      let (t, colTok) := t.next
      let cols :=
        match colTok with
        | some c => if c = "" then cols else cols ++ [c]
        | none => cols
      let (t, pk2) := t.peek
      if pk2 = some "," then selectColumnsLoop fuel t cols else .ok cols t

/-- The ORDER BY key loop of `parseSelect`. -/
def orderByLoop : Nat → Tok → List OrderBySpec → PRes (List OrderBySpec)
  | 0, _, _ => .div
  | fuel + 1, t, acc =>
      let (t, pk) := t.peek
      let t := if pk = some "," then (t.next).1 else t
      let (t, colTok) := t.next
      let col := bangStr colTok
      let (t, dTok) := t.peek
      let dUp := dTok.map jsToUpper
      let (t, direction) :=
        if dUp = some "ASC" ∨ dUp = some "DESC" then
          let (t2, d) := t.next
          (t2, jsToUpper (bangStr d))
        else (t, "ASC")
      let acc := acc ++ [⟨col, direction⟩]
      let (t, pk2) := t.peek
      if pk2 = some "," then orderByLoop fuel t acc else .ok acc t

/-- Splits a dotted join operand: `[, col] = part.split('.')` when the
part contains a dot, else the part itself. -/
def joinColumnOf (part : String) : String :=
  if part.toList.contains '.' then (splitOnChar part '.').getD 1 "" else part

/-- The post-FROM clause loop of `parseSelect`: while more input remains,
dispatch on JOIN / WHERE / ORDER / LIMIT, stopping at the first
unrecognized token. -/
def selectClausesLoop : Nat → Tok → SelectQuery → PRes SelectQuery
  | 0, _, _ => .div
  | fuel + 1, t, query =>
      let (t, more) := t.hasMore
      if ¬ more then .ok query t
      else
        let (t, pk) := t.peek
        let up := pk.map jsToUpper
        if up = some "INNER" ∨ up = some "LEFT" ∨ up = some "RIGHT" ∨
           up = some "JOIN" then
          let (t, joinType) :=
            if up = some "LEFT" ∨ up = some "RIGHT" ∨ up = some "INNER" then
              ((t.next).1,
               if up = some "LEFT" then JoinType.LEFT
               else if up = some "RIGHT" then JoinType.RIGHT
               else JoinType.INNER)
            else (t, JoinType.INNER)
          match t.expect "JOIN" with
          | .err e => .err e
          | .div => .div
          | .ok _ t =>
              let (t, jt) := t.next
              let joinTable := bangStr jt
              match t.expect "ON" with
              | .err e => .err e
              | .div => .div
              | .ok _ t =>
                  let (t, lp) := t.next
                  match lp with
                  | none => .err "Cannot read properties of null (reading 'includes')"
                  | some leftPart =>
                      match t.expect "=" with
                      | .err e => .err e
                      | .div => .div
                      | .ok _ t =>
                          let (t, rp) := t.next
                          match rp with
                          | none => .err "Cannot read properties of null (reading 'includes')"
                          | some rightPart =>
                              let joins := (query.joins.getD []) ++
                                [⟨joinType, joinTable, joinColumnOf leftPart,
                                  joinColumnOf rightPart⟩]
                              selectClausesLoop fuel t { query with joins := some joins }
        else if up = some "WHERE" then
          match parseWhere (fuel + 1) t with
          | .err e => .err e
          | .div => .div
          | .ok wcs t => selectClausesLoop fuel t { query with whereList := some wcs }
        else if up = some "ORDER" then
          match t.expect "ORDER" with
          | .err e => .err e
          | .div => .div
          | .ok _ t =>
              match t.expect "BY" with
              | .err e => .err e
              | .div => .div
              | .ok _ t =>
                  match orderByLoop (fuel + 1) t [] with
                  | .err e => .err e
                  | .div => .div
                  | .ok obs t =>
                      selectClausesLoop fuel t { query with orderBy := some obs }
        else if up = some "LIMIT" then
          match t.expect "LIMIT" with
          | .err e => .err e
          | .div => .div
          | .ok _ t =>
              let (t, nTok) := t.next
              selectClausesLoop fuel t
                { query with limit := some ((jsParseInt (bangStr nTok)).getD 0) }
        else .ok query t

/-- The `parseSelect` function of parser.ts. -/
def parseSelect (fuel : Nat) (t : Tok) : PRes SelectQuery :=
  match t.expect "SELECT" with
  | .err e => .err e
  | .div => .div
  | .ok _ t =>
      let (t, pk) := t.peek
      if pk = some "*" then
        let t := (t.next).1
        match t.expect "FROM" with
        | .err e => .err e
        | .div => .div
        | .ok _ t =>
            let (t, fromTok) := t.next
            selectClausesLoop fuel t { columns := none, fromTable := bangStr fromTok }
      else
        match selectColumnsLoop (fuel + 1) t [] with
        | .err e => .err e
        | .div => .div
        | .ok cols t =>
            match t.expect "FROM" with
            | .err e => .err e
            | .div => .div
            | .ok _ t =>
                let (t, fromTok) := t.next
                selectClausesLoop fuel t
                  { columns := some cols, fromTable := bangStr fromTok }

/-- The column-name list loop of `parseInsert`.  The loop condition
`peek() !== ')'` also holds at end of input (where `peek()` is null and
`next()` consumes nothing), so the loop then never terminates: `div` for
every fuel. -/
def insertColumnsLoop : Nat → Tok → List String → PRes (List String)
  | 0, _, _ => .div
  | fuel + 1, t, cols =>
      let (t, pk) := t.peek
      let t := if pk = some "," then (t.next).1 else t
      let (t, colTok) := t.next
      let cols :=
        match colTok with
        | some c => if c ≠ "" ∧ c ≠ ")" then cols ++ [c] else cols
        | none => cols
      let (t, pk2) := t.peek
      if pk2 ≠ some ")" then insertColumnsLoop fuel t cols else .ok cols t

/-- The single-tuple value loop of `parseInsert`; diverges at end of input
for the same reason as `insertColumnsLoop`. -/
def insertValuesRowLoop : Nat → Tok → List RowValue → PRes (List RowValue)
  | 0, _, _ => .div
  | fuel + 1, t, row =>
      let (t, pk) := t.peek
      let t := if pk = some "," then (t.next).1 else t
      let (t, valTok) := t.next
      let row :=
        match valTok with
        | some v => if v ≠ "" ∧ v ≠ ")" then row ++ [parseValue v] else row
        | none => row
      let (t, pk2) := t.peek
      if pk2 ≠ some ")" then insertValuesRowLoop fuel t row else .ok row t

/-- The tuple list loop of `parseInsert`: one parenthesized tuple per
iteration, continuing while a comma follows. -/
def insertValuesOuterLoop : Nat → Tok → List (List RowValue) →
    PRes (List (List RowValue))
  | 0, _, _ => .div
  | fuel + 1, t, values =>
      let (t, pk) := t.peek
      let t := if pk = some "," then (t.next).1 else t
      match t.expect "(" with
      | .err e => .err e
      | .div => .div
      | .ok _ t =>
          match insertValuesRowLoop (fuel + 1) t [] with
          | .err e => .err e
          | .div => .div
          | .ok row t =>
              let t := (t.next).1
              let values := values ++ [row]
              let (t, pk2) := t.peek
              if pk2 = some "," then insertValuesOuterLoop fuel t values
              else .ok values t

/-- The `parseInsert` function of parser.ts. -/
def parseInsert (fuel : Nat) (t : Tok) : PRes InsertQuery :=
  match t.expect "INSERT" with
  | .err e => .err e
  | .div => .div
  | .ok _ t =>
      match t.expect "INTO" with
      | .err e => .err e
      | .div => .div
      | .ok _ t =>
          let (t, intoTok) := t.next
          let into := bangStr intoTok
          let (t, pk) := t.peek
          let colsRes : PRes (List String) :=
            if pk = some "(" then
              let t := (t.next).1
              match insertColumnsLoop (fuel + 1) t [] with
              | .err e => .err e
              | .div => .div
              | .ok cols t => .ok cols ((t.next).1)
            else .ok [] t
          match colsRes with
          | .err e => .err e
          | .div => .div
          | .ok columns t =>
              match t.expect "VALUES" with
              | .err e => .err e
              | .div => .div
              | .ok _ t =>
                  match insertValuesOuterLoop fuel t [] with
                  | .err e => .err e
                  | .div => .div
                  | .ok values t =>
                      .ok { into := into, columns := columns, values := values } t

/-- The SET assignment loop of `parseUpdate`. -/
def updateSetLoop : Nat → Tok → Row → PRes Row
  | 0, _, _ => .div
  | fuel + 1, t, setAcc =>
      let (t, pk) := t.peek
      let t := if pk = some "," then (t.next).1 else t
      let (t, colTok) := t.next
      let column := bangStr colTok
      match t.expect "=" with
      | .err e => .err e
      | .div => .div
      | .ok _ t =>
          let (t, vTok) := t.next
          match vTok with
          | none => .err nullTokenError
          | some vs =>
              let setAcc := setRow setAcc column (parseValue vs)
              let (t, pk2) := t.peek
              if pk2 = some "," then updateSetLoop fuel t setAcc else .ok setAcc t

/-- The `parseUpdate` function of parser.ts. -/
def parseUpdate (fuel : Nat) (t : Tok) : PRes UpdateQuery :=
  match t.expect "UPDATE" with
  | .err e => .err e
  | .div => .div
  | .ok _ t =>
      let (t, tableTok) := t.next
      let table := bangStr tableTok
      match t.expect "SET" with
      | .err e => .err e
      | .div => .div
      | .ok _ t =>
          match updateSetLoop fuel t [] with
          | .err e => .err e
          | .div => .div
          | .ok setAcc t =>
              let (t, pk) := t.peek
              if pk.map jsToUpper = some "WHERE" then
                match parseWhere fuel t with
                | .err e => .err e
                | .div => .div
                | .ok wcs t =>
                    .ok { table := table, set := setAcc, whereList := some wcs } t
              else .ok { table := table, set := setAcc } t

/-- The `parseDelete` function of parser.ts. -/
def parseDelete (fuel : Nat) (t : Tok) : PRes DeleteQuery :=
  match t.expect "DELETE" with
  | .err e => .err e
  | .div => .div
  | .ok _ t =>
      match t.expect "FROM" with
      | .err e => .err e
      | .div => .div
      | .ok _ t =>
          let (t, fromTok) := t.next
          let fromName := bangStr fromTok
          let (t, pk) := t.peek
          if pk.map jsToUpper = some "WHERE" then
            match parseWhere fuel t with
            | .err e => .err e
            | .div => .div
            | .ok wcs t => .ok { fromTable := fromName, whereList := some wcs } t
          else .ok { fromTable := fromName } t

/-- The constraint loop of `parseCreateTable`: recognized constraint words
set flags (PRIMARY KEY implying NOT NULL); unrecognized words are consumed
and ignored; the loop stops at a comma, a closing parenthesis, or end of
input. -/
def constraintsLoop : Nat → Tok → ColumnDef → PRes ColumnDef
  | 0, _, _ => .div
  | fuel + 1, t, col =>
      let (t, more) := t.hasMore
      let (t, pk) := t.peek
      if ¬ (more ∧ pk ≠ some "," ∧ pk ≠ some ")") then .ok col t
      else
        let (t, cTok) := t.next
        let c := cTok.map jsToUpper
        if c = some "PRIMARY" then
          match t.expect "KEY" with
          | .err e => .err e
          | .div => .div
          | .ok _ t =>
              constraintsLoop fuel t { col with primaryKey := true, notNull := true }
        else if c = some "UNIQUE" then
          constraintsLoop fuel t { col with unique := true }
        else if c = some "NOT" then
          match t.expect "NULL" with
          | .err e => .err e
          | .div => .div
          | .ok _ t => constraintsLoop fuel t { col with notNull := true }
        else if c = some "AUTO_INCREMENT" ∨ c = some "AUTOINCREMENT" then
          constraintsLoop fuel t { col with autoIncrement := true }
        else constraintsLoop fuel t col

/-- Maps a type keyword to a `DataType`, consuming a `(length)` suffix
after the string-family keywords; unknown or missing keywords default to
string. -/
def parseColumnType (t : Tok) (typeTok : Option String) : Tok × DataType :=
  let tU := typeTok.map jsToUpper
  if tU = some "INT" ∨ tU = some "INTEGER" then (t, .int)
  else if tU = some "FLOAT" ∨ tU = some "DOUBLE" ∨ tU = some "REAL" then (t, .float)
  else if tU = some "BOOL" ∨ tU = some "BOOLEAN" then (t, .boolean)
  else if tU = some "STRING" ∨ tU = some "TEXT" ∨ tU = some "VARCHAR" then
    let (t, pk) := t.peek
    if pk = some "(" then (((((t.next).1).next).1.next).1, .string)
    else (t, .string)
  else (t, .string)

/-- The column-definition loop of `parseCreateTable`; a bare `)` in column
position breaks out.  Diverges at end of input (`peek()` null keeps the
loop condition true). -/
def createTableColumnsLoop : Nat → Tok → List ColumnDef → PRes (List ColumnDef)
  | 0, _, _ => .div
  | fuel + 1, t, cols =>
      let (t, pk) := t.peek
      let t := if pk = some "," then (t.next).1 else t
      let (t, nameTok) := t.next
      let name := bangStr nameTok
      if name = ")" then .ok cols t
      else
        let (t, typeTok) := t.next
        let (t, type) := parseColumnType t typeTok
        match constraintsLoop (fuel + 1) t { name := name, type := type } with
        | .err e => .err e
        | .div => .div
        | .ok col t =>
            let cols := cols ++ [col]
            let (t, pk2) := t.peek
            if pk2 ≠ some ")" then createTableColumnsLoop fuel t cols
            else .ok cols t

/-- The `parseCreateTable` function of parser.ts (the trailing `next()`
after the loop consumes the closing parenthesis). -/
def parseCreateTable (fuel : Nat) (t : Tok) : PRes CreateTableQuery :=
  match t.expect "TABLE" with
  | .err e => .err e
  | .div => .div
  | .ok _ t =>
      let (t, tableTok) := t.next
      let table := bangStr tableTok
      match t.expect "(" with
      | .err e => .err e
      | .div => .div
      | .ok _ t =>
          match createTableColumnsLoop fuel t [] with
          | .err e => .err e
          | .div => .div
          | .ok cols t => .ok { table := table, columns := cols } ((t.next).1)

/-- The `parseCreateIndex` function of parser.ts. -/
def parseCreateIndex (t : Tok) : PRes CreateIndexQuery :=
  let (t, pk) := t.peek
  let (t, unique) :=
    if pk.map jsToUpper = some "UNIQUE" then ((t.next).1, true) else (t, false)
  match t.expect "INDEX" with
  | .err e => .err e
  | .div => .div
  | .ok _ t =>
      let (t, nameTok) := t.next
      match t.expect "ON" with
      | .err e => .err e
      | .div => .div
      | .ok _ t =>
          let (t, tableTok) := t.next
          match t.expect "(" with
          | .err e => .err e
          | .div => .div
          | .ok _ t =>
              let (t, colTok) := t.next
              match t.expect ")" with
              | .err e => .err e
              | .div => .div
              | .ok _ t =>
                  .ok { name := bangStr nameTok, table := bangStr tableTok,
                        column := bangStr colTok, unique := unique } t

/-- The `parseCreate` dispatch of parser.ts. -/
def parseCreate (fuel : Nat) (t : Tok) : PRes ParsedQuery :=
  match t.expect "CREATE" with
  | .err e => .err e
  | .div => .div
  | .ok _ t =>
      let (t, pk) := t.peek
      let up := pk.map jsToUpper
      if up = some "TABLE" then (parseCreateTable fuel t).map .createTable
      else if up = some "INDEX" ∨ up = some "UNIQUE" then
        (parseCreateIndex t).map .createIndex
      else .err "Expected TABLE or INDEX after CREATE"

/-- The `parseDrop` function of parser.ts. -/
def parseDrop (t : Tok) : PRes DropTableQuery :=
  match t.expect "DROP" with
  | .err e => .err e
  | .div => .div
  | .ok _ t =>
      match t.expect "TABLE" with
      | .err e => .err e
      | .div => .div
      | .ok _ t =>
          let (t, tableTok) := t.next
          .ok { table := bangStr tableTok } t

/-- The top-level `parse(sql)` of parser.ts: dispatch on the first token,
case-insensitively; anything else (including an empty input, rendered
"undefined") is an unknown command. -/
def parse (fuel : Nat) (sql : String) : PRes ParsedQuery :=
  let t := Tok.ofString sql
  let (t, firstTok) := t.peek
  match firstTok.map jsToUpper with
  | some "SELECT" => (parseSelect fuel t).map .select
  | some "INSERT" => (parseInsert fuel t).map .insert
  | some "UPDATE" => (parseUpdate fuel t).map .update
  | some "DELETE" => (parseDelete fuel t).map .delete
  | some "CREATE" => parseCreate fuel t
  | some "DROP" => (parseDrop t).map .dropTable
  | other =>
      .err ("Unknown command: " ++
            (match other with | some s => s | none => "undefined"))

/-- The `execute(sql)` boundary of database.ts: parse, dispatch, and
convert any thrown error into a failed `QueryResult`.  The result is
`none` when the parser is still looping after `fuel` iterations — a
source-level call that diverges yields `none` for every fuel. -/
def Database.execute (fuel : Nat) (db : Database) (sql : String) :
    Option (Database × QueryResult) :=
  match parse fuel sql with
  | .div => none
  | .err e => some (db, { success := false, message := some e })
  | .ok q _ =>
      match db.executeQuery q with
      | (db2, .error e) => some (db2, { success := false, message := some e })
      | (db2, .ok r) => some (db2, r)

/-!  Concrete scenario states used by the theorems below.  Each state is
built exclusively through the model's own operations; the theorems assert
that every constructor/operation involved succeeded, so the fallback in
`tableOr` is never taken. -/

/-- Extracts the table from a `Table.new` call; the accompanying theorems
assert `isOk`, so the empty fallback is never used. -/
def tableOr (e : Except String Table) : Table :=
  match e with
  | .ok t => t
  | .error _ => ⟨"", [], [], [], [], []⟩

/-- The malformed INSERT with an unterminated tuple on which the parser's
value loop never terminates. -/
def badInsertSql : String := "INSERT INTO t VALUES (1"

/-- The character content of `badInsertSql` (trimming changes nothing). -/
def badInsertChars : List Char := (jsTrim badInsertSql).toList

/-- Tokenizer state at entry of the tuple-list loop of `parseInsert` on
`badInsertSql` (position just past `VALUES`). -/
def badInsertLoopTok : Tok := ⟨badInsertChars, 20⟩

/-- Tokenizer state at end of input on `badInsertSql`: the state on which
the value-row loop spins (peek yields null, next consumes nothing). -/
def badInsertEofTok : Tok := ⟨badInsertChars, 23⟩

/-- Columns for the C2 scenario: an auto-increment `id` and a UNIQUE
`email`. -/
def c2cols : List ColumnDef :=
  [{ name := "id", type := .int, autoIncrement := true },
   { name := "email", type := .string, unique := true }]

/-- C2 scenario: the freshly created table. -/
def c2table0 : Table := tableOr (Table.new "t" c2cols)

/-- C2 scenario: after inserting one row with email `"a"`. -/
def c2table1 : Table := (c2table0.insert [("email", .str "a")]).1

/-- C2 scenario: the duplicate insert (state and thrown error). -/
def c2dup : Table × Except String Row := c2table1.insert [("email", .str "a")]

/-- Columns for the C3/C4 scenario: a single INT PRIMARY KEY column
(auto-indexed, unique). -/
def pkCols : List ColumnDef := [{ name := "id", type := .int, primaryKey := true }]

/-- C3/C4 scenario: the freshly created table. -/
def pkTable0 : Table := tableOr (Table.new "t" pkCols)

/-- C3/C4 scenario: after inserting rows with ids 1..6 (positions 0..5). -/
def pkTable6 : Table :=
  [1, 2, 3, 4, 5, 6].foldl (fun t k => (t.insert [("id", RowValue.int k)]).1) pkTable0

/-- C3/C4 scenario: after `DELETE`-ing the row with id 4 through
`Table.delete` (which de-indexes the key and tombstones position 3). -/
def pkTable7 : Table := (pkTable6.delete (some "id") (some "=") (some (.int 4))).1

/-- One B-tree operation of a C5 test sequence. -/
inductive BOp where
  | ins (k : RowValue) (p : Nat)
  | del (k : RowValue) (p : Nat)

/-- Applies a sequence of operations to an initially empty B-tree. -/
def applyBOps (ops : List BOp) : BTree :=
  ops.foldl
    (fun t o =>
      match o with
      | .ins k p => t.insert k p
      | .del k p => (t.delete k p).1)
    BTree.new

/-- Modelled from the spec: the linear replay of an operation sequence for
one key — an insert records the position (idempotently), a delete removes
it; key equivalence is the tree's own comparator equality. -/
def replayPositions (ops : List BOp) (key : RowValue) : List Nat :=
  ops.foldl
    (fun acc o =>
      match o with
      | .ins k p =>
          if defaultComparator k key = 0 then
            (if p ∈ acc then acc else acc ++ [p])
          else acc
      | .del k p => if defaultComparator k key = 0 then acc.erase p else acc)
    []

/-- The C5 operation sequence: six inserts with distinct keys, then one
delete that empties an internal-node slot. -/
def c5ops : List BOp :=
  [.ins (.int 1) 101, .ins (.int 2) 102, .ins (.int 3) 103,
   .ins (.int 4) 104, .ins (.int 5) 105, .ins (.int 6) 106,
   .del (.int 4) 104]

/-- The tree after the C5 sequence. -/
def c5tree : BTree := applyBOps c5ops

/-- The full-scan reference for C4 (the else-branch of `selectWhere` lifted
out verbatim: live-row positions satisfying the predicate, projected onto
the schema columns). -/
def scanWhere (t : Table) (column operator : String) (value : RowValue) : List Row :=
  ((t.scanPositions column operator value).filter
      (fun idx => ¬ t.deletedIndices.contains idx)).map
    (fun idx => projectRow (t.rows.getD idx []) (t.columns.map (fun c => c.name)))

/-- Decidable check that `le` is transitive on the members of `rows`
(hypothesis of the conditional sortedness part of C8). -/
def transOn (le : Row → Row → Bool) (rows : List Row) : Bool :=
  rows.all fun a => rows.all fun b => rows.all fun c =>
    !(le a b && le b c) || le a c

/-- The ORDER BY example rows of C8: a-values 2, null, 1. -/
def orderRowsExample : List Row :=
  [[("a", .int 2)], [("a", .null)], [("a", .int 1)]]

/-- A tie example for the stability part of C8: two rows share `a = 1`,
distinguished by `b`. -/
def orderTieExample : List Row :=
  [[("a", .int 1), ("b", .int 1)], [("a", .null), ("b", .int 2)],
   [("a", .int 1), ("b", .int 3)]]

/-- Columns of the C9 `users` table. -/
def usersCols : List ColumnDef :=
  [{ name := "id", type := .int }, { name := "name", type := .string }]

/-- Columns of the C9 `posts` table. -/
def postsCols : List ColumnDef :=
  [{ name := "id", type := .int }, { name := "user_id", type := .int }]

/-- C9 scenario: `users` with rows {id:1,name:'a'} and {id:2,name:'b'}. -/
def usersTable : Table :=
  (((tableOr (Table.new "users" usersCols)).insert
      [("id", .int 1), ("name", .str "a")]).1.insert
      [("id", .int 2), ("name", .str "b")]).1

/-- C9 scenario: `posts` with the single row {id:10,user_id:1}. -/
def postsTable : Table :=
  ((tableOr (Table.new "posts" postsCols)).insert
      [("id", .int 10), ("user_id", .int 1)]).1

/-- C9 scenario: the database holding both tables. -/
def joinDb : Database := ⟨"main", [("users", usersTable), ("posts", postsTable)]⟩

/-- C9 scenario: the AST of
`SELECT * FROM users LEFT JOIN posts ON users.id = posts.user_id`. -/
def joinQuery : SelectQuery :=
  { columns := none, fromTable := "users",
    joins := some [⟨.LEFT, "posts", "id", "user_id"⟩] }

/-- Columns for the C10 scenario: one UNIQUE INT column. -/
def uniqCols : List ColumnDef := [{ name := "a", type := .int, unique := true }]

/-- C10 scenario: the table after inserting rows with a = 1 and a = 2. -/
def uniqTable2 : Table :=
  (((tableOr (Table.new "t" uniqCols)).insert [("a", .int 1)]).1.insert
      [("a", .int 2)]).1

/-- C10 scenario: `UPDATE t SET a = 5` with no WHERE — it targets both
live rows. -/
def c10result : Table × Except String Nat := uniqTable2.update [("a", .int 5)]

/-!  Theorems. -/

/-- C5: after the operation sequence `c5ops` (inserts of keys 1..6, then a
delete of key 4 that empties that key's slot in an internal node and
splices it out without merging children), `search` for key 5 returns `[]`
although the linear replay of the sequence reports position 105: the
subtree holding keys 5 and 6 became unreachable, so search does not equal
the linear replay. -/
theorem btree_search_diverges_from_replay_after_delete :
    BTree.search c5tree (.int 5) = [] ∧
    replayPositions c5ops (.int 5) = [105] ∧
    BTree.search c5tree (.int 5) ≠ replayPositions c5ops (.int 5) ∧
    BTree.search c5tree (.int 6) = [] ∧
    replayPositions c5ops (.int 6) = [106] := by
  refine ⟨by decide, by decide, by decide, by decide, by decide⟩

/-- C3: in the reachable state `pkTable7` (create table with an INT
PRIMARY KEY, insert ids 1..6, delete id 4), the live row at position 4
holds id 5, yet the table's only index — on column `id` — no longer
contains position 4 under the value 5: `Table.delete`'s index maintenance
left the index stale for live rows. -/
theorem index_consistency_invariant_fails_after_delete :
    (Table.new "t" pkCols).isOk = true ∧
    pkTable6.getRowCount = 6 ∧
    pkTable6.deletedIndices = [] ∧
    pkTable7.getRowCount = 5 ∧
    pkTable7.deletedIndices = [3] ∧
    pkTable7.rows.getD 4 [] = [("id", .int 5)] ∧
    pkTable7.deletedIndices.contains 4 = false ∧
    (pkTable7.indexes.map fun ix => ix.column) = ["id"] ∧
    (pkTable7.indexes.map fun ix => ix.tree.search (.int 5)) = [[]] := by
  refine ⟨by decide, by decide, by decide, by decide, by decide,
          by decide, by decide, by decide, by decide⟩

/-- C4: in the same reachable state `pkTable7`, `selectWhere("id", "=", 5)`
answers via the (stale) index and returns no rows, while the full live-row
scan evaluating the same equality predicate (the else-branch of
`selectWhere`, lifted out as `scanWhere`) returns the live row with id 5:
index/scan parity fails. -/
theorem selectWhere_index_scan_parity_fails :
    (Table.new "t" pkCols).isOk = true ∧
    pkTable7.selectWhere "id" "=" (.int 5) = [] ∧
    scanWhere pkTable7 "id" "=" (.int 5) = [[("id", .int 5)]] ∧
    pkTable7.selectWhere "id" "=" (.int 5) ≠ scanWhere pkTable7 "id" "=" (.int 5) := by
  refine ⟨by decide, by decide, by decide, by decide⟩

/-- C10: in the reachable state `uniqTable2` (UNIQUE column `a`, two live
rows with a = 1 and a = 2), `UPDATE SET a = 5` with no WHERE targets both
live rows and succeeds (the pre-check only rejects positions outside the
target set), leaving two live rows that share the value 5 in the
unique-indexed column, both registered under key 5 in the unique index. -/
theorem update_to_same_value_bypasses_unique_check :
    (Table.new "t" uniqCols).isOk = true ∧
    uniqTable2.getRowCount = 2 ∧
    c10result.2 = .ok 2 ∧
    (c10result.1.indexes.map fun ix => (ix.unique, ix.column)) = [(true, "a")] ∧
    c10result.1.rows = [[("a", .int 5)], [("a", .int 5)]] ∧
    c10result.1.deletedIndices = [] ∧
    (c10result.1.indexes.map fun ix => ix.tree.search (.int 5)) = [[0, 1]] := by
  refine ⟨by decide, by decide, rfl, by decide, by decide, by decide, by decide⟩

/-- C2 (counterexample): a duplicate insert on the unique `email` column
is rejected and appends no row, but the auto-increment counter for `id`
was already drawn during column processing, so the table's prior state is
not fully unchanged: the counter advanced from 1 to 2. -/
theorem insert_unique_violation_advances_counter :
    (Table.new "t" c2cols).isOk = true ∧
    (c2table1.indexes.map fun ix => (ix.unique, ix.column, ix.tree.search (.str "a"))) =
      [(true, "email", [0])] ∧
    c2dup.2 = .error "Duplicate value \"a\" for unique column \"email\"" ∧
    c2dup.1.rows = c2table1.rows ∧
    c2table1.autoIncrementCounters = [("id", 1)] ∧
    c2dup.1.autoIncrementCounters = [("id", 2)] ∧
    c2dup.1.autoIncrementCounters ≠ c2table1.autoIncrementCounters := by
  refine ⟨by decide, by decide, rfl, by decide, by decide, by decide, by decide⟩

/-- C6: when an UPDATE or DELETE statement carries a WHERE list with a
first clause and any further clauses, execution forwards only the first
clause to the table layer: the result (database state and query result)
is identical to executing with the first clause alone, so the remaining
clauses have no effect. -/
theorem update_delete_honor_only_first_where_clause :
    (∀ (db : Database) (tbl : String) (setVals : Row) (w0 : WhereClause)
        (rest : List WhereClause),
       Database.update db { table := tbl, set := setVals, whereList := some (w0 :: rest) } =
       Database.update db { table := tbl, set := setVals, whereList := some [w0] }) ∧
    (∀ (db : Database) (tbl : String) (w0 : WhereClause) (rest : List WhereClause),
       Database.deleteRows db { fromTable := tbl, whereList := some (w0 :: rest) } =
       Database.deleteRows db { fromTable := tbl, whereList := some [w0] }) := by
  constructor
  · intro db tbl setVals w0 rest
    unfold Database.update
    cases db.getTable tbl <;> rfl
  · intro db tbl w0 rest
    unfold Database.deleteRows
    cases db.getTable tbl <;> rfl

/-- The executor's `evaluateClause` body is a verbatim duplicate of the
table layer's `evaluateCondition`. -/
theorem evaluateClauseVal_eq_evaluateCondition :
    evaluateClauseVal = evaluateCondition := rfl

/-- C7: whenever at least one side of a comparison is Null, predicate
evaluation (in both the table layer's `evaluateCondition` and the
executor's `evaluateClause`) yields true exactly when the operator is `=`
and both sides are Null; under every other operator — including `!=` —
and for Null against non-Null under any operator, it yields false. -/
theorem null_predicate_semantics :
    ∀ (x y : RowValue) (op : String), x = RowValue.null ∨ y = RowValue.null →
      ((evaluateCondition (some x) op y = true ↔
          (op = "=" ∧ x = RowValue.null ∧ y = RowValue.null)) ∧
       (evaluateClauseVal (some x) op y = true ↔
          (op = "=" ∧ x = RowValue.null ∧ y = RowValue.null))) := by
  intro x y op h
  have hg : (some x = some RowValue.null ∨ y = RowValue.null) := by
    rcases h with h | h
    · exact Or.inl (by rw [h])
    · exact Or.inr h
  have key : (if op = "=" then jsEqOpt (some x) y else false) = true ↔
      (op = "=" ∧ x = RowValue.null ∧ y = RowValue.null) := by
    by_cases hop : op = "="
    · rw [if_pos hop]
      simp only [hop, true_and]
      rcases h with h | h
      · subst h; cases y <;> simp [jsEqOpt, jsEq]
      · subst h; cases x <;> simp [jsEqOpt, jsEq]
    · rw [if_neg hop]
      simp [hop]
  constructor
  · unfold evaluateCondition; rw [if_pos hg]; exact key
  · rw [evaluateClauseVal_eq_evaluateCondition]; unfold evaluateCondition
    rw [if_pos hg]; exact key

/-- Closed instance of `null_predicate_semantics`: Null = Null is true,
Null != Null is false. -/
theorem null_predicate_semantics_witness :
    evaluateCondition (some RowValue.null) "=" RowValue.null = true ∧
    evaluateClauseVal (some RowValue.null) "!=" RowValue.null = false := by
  have h1 := null_predicate_semantics RowValue.null RowValue.null "=" (Or.inl rfl)
  have h2 := null_predicate_semantics RowValue.null RowValue.null "!=" (Or.inl rfl)
  refine ⟨h1.1.mpr ⟨rfl, rfl, rfl⟩, ?_⟩
  cases hb : evaluateClauseVal (some RowValue.null) "!=" RowValue.null
  · rfl
  · exact absurd (h2.2.mp hb).1 (by decide)

/-- If some unique index holds a non-null value of the new row, the unique
check of `Table.insert` throws (the first such index's duplicate error). -/
theorem checkUniqueIndexes_error_of_mem (ixs : List Index) (newRow : Row)
    (h : ∃ ix ∈ ixs, ix.unique = true ∧
        (lookupRow newRow ix.column).getD .null ≠ .null ∧
        ix.tree.search ((lookupRow newRow ix.column).getD .null) ≠ []) :
    ∃ e, checkUniqueIndexes ixs newRow = .error e := by
  induction ixs with
  | nil => simp at h
  | cons ix rest ih =>
      rcases h with ⟨ix0, hmem, hu, hnn, hs⟩
      rw [List.mem_cons] at hmem
      rw [checkUniqueIndexes]
      by_cases h1 : ix.unique = true
      · rw [if_pos h1]
        by_cases h2 : (lookupRow newRow ix.column).getD RowValue.null ≠ RowValue.null
        · rw [if_pos h2]
          by_cases h3 :
              ix.tree.search ((lookupRow newRow ix.column).getD RowValue.null) ≠ []
          · rw [if_pos h3]; exact ⟨_, rfl⟩
          · rw [if_neg h3]
            apply ih
            rcases hmem with rfl | hmem
            · exact absurd hs h3
            · exact ⟨ix0, hmem, hu, hnn, hs⟩
        · rw [if_neg h2]
          apply ih
          rcases hmem with rfl | hmem
          · exact absurd hnn h2
          · exact ⟨ix0, hmem, hu, hnn, hs⟩
      · rw [if_neg h1]
        apply ih
        rcases hmem with rfl | hmem
        · exact absurd hu h1
        · exact ⟨ix0, hmem, hu, hnn, hs⟩

/-- C2 (amended): when column processing succeeds and some unique index
already holds the row's non-null value for its column, `Table.insert`
throws the duplicate error with no row appended, no index touched, and
the tombstone set unchanged; only the auto-increment counters may have
advanced (see the counterexample theorem). -/
theorem insert_unique_violation_no_row_or_index_change
    (t : Table) (data : Row) (ctr : List (String × Int)) (newRow : Row)
    (hproc : processColumns t.columns data t.autoIncrementCounters = (ctr, .ok newRow))
    (hviol : ∃ ix ∈ t.indexes, ix.unique = true ∧
        (lookupRow newRow ix.column).getD .null ≠ .null ∧
        ix.tree.search ((lookupRow newRow ix.column).getD .null) ≠ []) :
    ∃ e, (t.insert data).2 = .error e ∧
      (t.insert data).1.rows = t.rows ∧
      (t.insert data).1.indexes = t.indexes ∧
      (t.insert data).1.deletedIndices = t.deletedIndices := by
  obtain ⟨e, he⟩ := checkUniqueIndexes_error_of_mem t.indexes newRow hviol
  have hins : t.insert data = ({ t with autoIncrementCounters := ctr }, .error e) := by
    unfold Table.insert
    rw [hproc]
    simp only [he]
  exact ⟨e, by rw [hins], by rw [hins], by rw [hins], by rw [hins]⟩

/-- Closed instance of the amended C2 statement at the concrete duplicate
insert of the counterexample scenario. -/
theorem insert_unique_violation_no_row_or_index_change_witness :
    ∃ e, (c2table1.insert [("email", RowValue.str "a")]).2 = .error e ∧
      (c2table1.insert [("email", RowValue.str "a")]).1.rows = c2table1.rows ∧
      (c2table1.insert [("email", RowValue.str "a")]).1.indexes = c2table1.indexes ∧
      (c2table1.insert [("email", RowValue.str "a")]).1.deletedIndices =
        c2table1.deletedIndices :=
  insert_unique_violation_no_row_or_index_change c2table1
    [("email", RowValue.str "a")] [("id", 2)]
    [("id", RowValue.int 2), ("email", RowValue.str "a")] rfl (by decide)

/-- Character-list comparison is antisymmetric in sign. -/
theorem cmpCharList_antisymm : ∀ (a b : List Char), cmpCharList a b = -(cmpCharList b a)
  | [], [] => by simp [cmpCharList]
  | [], _ :: _ => by simp [cmpCharList]
  | _ :: _, [] => by simp [cmpCharList]
  | a :: as, b :: bs => by
      unfold cmpCharList
      rcases Nat.lt_trichotomy a.toNat b.toNat with h | h | h
      · simp [h, Nat.lt_asymm h]
      · simp only [h, Nat.lt_irrefl, if_false]
        exact cmpCharList_antisymm as bs
      · simp [h, Nat.lt_asymm h]

/-- String comparison is antisymmetric in sign. -/
theorem cmpString_antisymm (a b : String) : cmpString a b = -(cmpString b a) :=
  cmpCharList_antisymm a.toList b.toList

/-- The per-key ORDER BY comparison is antisymmetric in sign. -/
theorem orderKeyCmp_antisymm (x y : Option RowValue) :
    orderKeyCmp x y = -(orderKeyCmp y x) := by
  rcases x with _ | xv <;> rcases y with _ | yv
  · simp [orderKeyCmp]
  · cases yv <;> simp [orderKeyCmp]
  · cases xv <;> simp [orderKeyCmp]
  · cases xv <;> cases yv <;>
      first
        | (simp [orderKeyCmp]; omega)
        | (simp [orderKeyCmp]; exact cmpString_antisymm _ _)
        | simp [orderKeyCmp]

/-- The multi-key ORDER BY comparator is antisymmetric in sign. -/
theorem rowCompare_antisymm (ob : List OrderBySpec) (a b : Row) :
    rowCompare ob a b = -(rowCompare ob b a) := by
  induction ob with
  | nil => simp [rowCompare]
  | cons o rest ih =>
      rw [rowCompare, rowCompare]
      by_cases hc : orderKeyCmp (lookupRow a o.column) (lookupRow b o.column) = 0
      · have hc2 : orderKeyCmp (lookupRow b o.column) (lookupRow a o.column) = 0 := by
          rw [orderKeyCmp_antisymm]; omega
        rw [if_neg (by simp [hc]), if_neg (by simp [hc2])]
        exact ih
      · have hc2 : orderKeyCmp (lookupRow b o.column) (lookupRow a o.column) ≠ 0 := by
          rw [orderKeyCmp_antisymm]; omega
        rw [if_pos hc, if_pos hc2]
        have hanti := orderKeyCmp_antisymm (lookupRow a o.column) (lookupRow b o.column)
        by_cases hd : o.direction = "DESC"
        · rw [if_pos hd, if_pos hd]; omega
        · rw [if_neg hd, if_neg hd]; omega

/-- The ORDER BY row comparator is total as a boolean `≤`. -/
theorem rowLe_total (ob : List OrderBySpec) (a b : Row) :
    (decide (rowCompare ob a b ≤ 0) || decide (rowCompare ob b a ≤ 0)) = true := by
  have h := rowCompare_antisymm ob a b
  by_cases hc : rowCompare ob a b ≤ 0
  · simp [hc]
  · have : rowCompare ob b a ≤ 0 := by omega
    simp [this]

/-- Conditional sortedness of `applyOrderBy`: whenever the row comparator
is transitive on the given rows (it is not transitive on all of `Row`
because mixed-type keys compare as ties), the output is pairwise sorted.
Proved by transporting core's `sorted_mergeSort` through the subtype of
members. -/
theorem pairwise_applyOrderBy (rows : List Row) (ob : List OrderBySpec)
    (h : transOn (fun a b => decide (rowCompare ob a b ≤ 0)) rows = true) :
    (applyOrderBy rows ob).Pairwise (fun a b => rowCompare ob a b ≤ 0) := by
  classical
  unfold transOn at h
  have htrans : ∀ (a b c : {x // x ∈ rows}),
      (fun a b : {x // x ∈ rows} => decide (rowCompare ob a.1 b.1 ≤ 0)) a b →
      (fun a b : {x // x ∈ rows} => decide (rowCompare ob a.1 b.1 ≤ 0)) b c →
      (fun a b : {x // x ∈ rows} => decide (rowCompare ob a.1 b.1 ≤ 0)) a c := by
    intro a b c hab hbc
    have h1 := (List.all_eq_true.mp h) a.1 a.2
    have h2 := (List.all_eq_true.mp h1) b.1 b.2
    have h3 := (List.all_eq_true.mp h2) c.1 c.2
    simp only at hab hbc
    simp only [hab, hbc, Bool.and_self, Bool.not_true, Bool.false_or] at h3
    exact h3
  have htotal : ∀ (a b : {x // x ∈ rows}),
      ((fun a b : {x // x ∈ rows} => decide (rowCompare ob a.1 b.1 ≤ 0)) a b ||
       (fun a b : {x // x ∈ rows} => decide (rowCompare ob a.1 b.1 ≤ 0)) b a) = true := by
    intro a b
    exact rowLe_total ob a.1 b.1
  have hs := List.sorted_mergeSort htrans htotal rows.attach
  have hmap : (rows.attach.mergeSort
        (fun a b : {x // x ∈ rows} => decide (rowCompare ob a.1 b.1 ≤ 0))).map
          Subtype.val =
      (rows.attach.map Subtype.val).mergeSort
        (fun a b => decide (rowCompare ob a b ≤ 0)) :=
    List.map_mergeSort (fun a _ b _ => rfl)
  rw [List.attach_map_subtype_val] at hmap
  have heq : applyOrderBy rows ob =
      (rows.attach.mergeSort
        (fun a b : {x // x ∈ rows} => decide (rowCompare ob a.1 b.1 ≤ 0))).map
          Subtype.val := by
    rw [hmap]; rfl
  rw [heq]
  refine List.Pairwise.map Subtype.val ?_ hs
  intro a b hab
  exact of_decide_eq_true hab

/-- C8: ORDER BY is a stable multi-key sort.  The conjuncts state: the
claim's two concrete examples ([2, null, 1] sorted by `a ASC` yields
[null, 1, 2], by `a DESC` yields [2, 1, null]); a tie example showing
stability (the two rows with a = 1 keep their original relative order);
the sort permutes its input; it equals the position-tie-breaking sort
(core's canonical statement of merge-sort stability); Null sorts before
every non-null value within a key; ties fall through to the next key and
a non-zero key comparison decides, negated under DESC; the comparator is
antisymmetric; and the output is pairwise sorted whenever the comparator
is transitive on the given rows. -/
theorem applyOrderBy_stable_null_first_multikey :
    (applyOrderBy orderRowsExample [⟨"a", "ASC"⟩] =
       [[("a", .null)], [("a", .int 1)], [("a", .int 2)]]) ∧
    (applyOrderBy orderRowsExample [⟨"a", "DESC"⟩] =
       [[("a", .int 2)], [("a", .int 1)], [("a", .null)]]) ∧
    (applyOrderBy orderTieExample [⟨"a", "ASC"⟩] =
       [[("a", .null), ("b", .int 2)], [("a", .int 1), ("b", .int 1)],
        [("a", .int 1), ("b", .int 3)]]) ∧
    (∀ (rows : List Row) (ob : List OrderBySpec), (applyOrderBy rows ob).Perm rows) ∧
    (∀ (rows : List Row) (ob : List OrderBySpec),
       (List.mergeSort rows.enum
           (List.enumLE (fun a b => decide (rowCompare ob a b ≤ 0)))).map Prod.snd =
         applyOrderBy rows ob) ∧
    (∀ v : RowValue,
       orderKeyCmp (some .null) (some v) = (if v = .null then 0 else -1)) ∧
    (∀ (o : OrderBySpec) (rest : List OrderBySpec) (a b : Row),
       orderKeyCmp (lookupRow a o.column) (lookupRow b o.column) = 0 →
       rowCompare (o :: rest) a b = rowCompare rest a b) ∧
    (∀ (o : OrderBySpec) (rest : List OrderBySpec) (a b : Row),
       orderKeyCmp (lookupRow a o.column) (lookupRow b o.column) ≠ 0 →
       rowCompare (o :: rest) a b =
         (if o.direction = "DESC" then
            -(orderKeyCmp (lookupRow a o.column) (lookupRow b o.column))
          else orderKeyCmp (lookupRow a o.column) (lookupRow b o.column))) ∧
    (∀ (ob : List OrderBySpec) (a b : Row), rowCompare ob a b = -(rowCompare ob b a)) ∧
    (∀ (rows : List Row) (ob : List OrderBySpec),
       transOn (fun a b => decide (rowCompare ob a b ≤ 0)) rows = true →
       (applyOrderBy rows ob).Pairwise (fun a b => rowCompare ob a b ≤ 0)) := by
  refine ⟨?_, ?_, ?_, ?_, ?_, ?_, ?_, ?_, ?_, ?_⟩
  · simp [applyOrderBy, orderRowsExample, List.mergeSort, List.merge, rowCompare,
          orderKeyCmp, lookupRow]
  · simp [applyOrderBy, orderRowsExample, List.mergeSort, List.merge, rowCompare,
          orderKeyCmp, lookupRow]
  · simp [applyOrderBy, orderTieExample, List.mergeSort, List.merge, rowCompare,
          orderKeyCmp, lookupRow]
  · intro rows ob; exact List.mergeSort_perm rows _
  · intro rows ob; exact List.mergeSort_enum
  · intro v; cases v <;> simp [orderKeyCmp]
  · intro o rest a b hz; rw [rowCompare, hz]; simp
  · intro o rest a b hz; rw [rowCompare, if_pos hz]
  · exact rowCompare_antisymm
  · exact pairwise_applyOrderBy

/-- Closed instance of the conditional parts of the C8 theorem at the
claim's own example rows: the comparator is transitive there, the sorted
output is pairwise ordered, and a concrete tie falls through to the next
key. -/
theorem applyOrderBy_stable_null_first_multikey_witness :
    (applyOrderBy orderRowsExample [⟨"a", "ASC"⟩]).Pairwise
      (fun a b => rowCompare [⟨"a", "ASC"⟩] a b ≤ 0) ∧
    rowCompare [⟨"a", "ASC"⟩, ⟨"b", "ASC"⟩]
        [("a", .int 1), ("b", .int 1)] [("a", .int 1), ("b", .int 3)] =
      rowCompare [⟨"b", "ASC"⟩]
        [("a", .int 1), ("b", .int 1)] [("a", .int 1), ("b", .int 3)] := by
  constructor
  · exact applyOrderBy_stable_null_first_multikey.2.2.2.2.2.2.2.2.2
      orderRowsExample [⟨"a", "ASC"⟩] (by decide)
  · exact applyOrderBy_stable_null_first_multikey.2.2.2.2.2.2.1
      ⟨"a", "ASC"⟩ [⟨"b", "ASC"⟩] _ _ (by decide)

/-- Folding an append-accumulating body equals appending the flat-map. -/
theorem foldl_append_flatMap (g : α → List β) :
    ∀ (L : List α) (acc : List β),
      L.foldl (fun a x => a ++ g x) acc = acc ++ L.flatMap g
  | [], acc => by simp
  | x :: L, acc => by
      simp only [List.foldl_cons, List.flatMap_cons]
      rw [foldl_append_flatMap g L]
      simp [List.append_assoc]

/-- The inner join loop collects exactly the matching right rows (in
order), combined, and its flag records whether any matched. -/
theorem joinMatches_go (l : Row) (lc rc ln rn : String) :
    ∀ (R : List Row) (acc : List Row) (flag : Bool),
      R.foldl
        (fun acc rightRow =>
          if jsEqOptOpt (lookupRow l lc) (lookupRow rightRow rc) then
            (acc.1 ++ [combineInto (combineInto [] ln l) rn rightRow], true)
          else acc)
        (acc, flag) =
      (acc ++ ((R.filter fun r => jsEqOptOpt (lookupRow l lc) (lookupRow r rc)).map
          fun r => combineInto (combineInto [] ln l) rn r),
       flag || !((R.filter fun r => jsEqOptOpt (lookupRow l lc) (lookupRow r rc)).isEmpty))
  | [], acc, flag => by simp
  | r :: R, acc, flag => by
      by_cases h : jsEqOptOpt (lookupRow l lc) (lookupRow r rc)
      · simp only [List.foldl_cons, h, if_pos, List.filter_cons_of_pos]
        rw [joinMatches_go l lc rc ln rn R]
        simp [List.append_assoc]
      · simp only [List.foldl_cons, h, Bool.false_eq_true, if_false]
        rw [joinMatches_go l lc rc ln rn R]
        simp [h]

/-- `joinMatches` in closed form: the combined matching rows and the
matched flag. -/
theorem joinMatches_eq (l : Row) (R : List Row) (lc rc ln rn : String) :
    joinMatches l R lc rc ln rn =
      (((R.filter fun r => jsEqOptOpt (lookupRow l lc) (lookupRow r rc)).map
          fun r => combineInto (combineInto [] ln l) rn r),
       !((R.filter fun r => jsEqOptOpt (lookupRow l lc) (lookupRow r rc)).isEmpty)) := by
  unfold joinMatches
  rw [joinMatches_go l lc rc ln rn R [] false]
  simp

/-- Every key of a row written by `setRow` is an old key or the written
key. -/
theorem keys_setRow_mem :
    ∀ (r : Row) (k : String) (v : RowValue) (x : String),
      x ∈ (setRow r k v).map Prod.fst → x ∈ r.map Prod.fst ∨ x = k
  | [], k, v, x => by simp [setRow]
  | (k0, v0) :: r, k, v, x => by
      unfold setRow
      by_cases h : k0 = k
      · simp only [if_pos h, List.map_cons, List.mem_cons]
        rintro (rfl | hx)
        · exact Or.inl (by simp)
        · exact Or.inl (by simp [hx])
      · simp only [if_neg h, List.map_cons, List.mem_cons]
        rintro (rfl | hx)
        · exact Or.inl (by simp)
        · rcases keys_setRow_mem r k v x hx with h2 | h2
          · exact Or.inl (by simp [h2])
          · exact Or.inr h2

/-- Every key of one side's contribution to a joined row is one of that
side's keys, either bare or qualified by the side's table name. -/
theorem keys_combineInto :
    ∀ (l : Row) (acc : Row) (ln : String) (x : String),
      x ∈ (combineInto acc ln l).map Prod.fst →
      x ∈ acc.map Prod.fst ∨ ∃ k ∈ l.map Prod.fst, x = k ∨ x = ln ++ "." ++ k
  | [], acc, ln, x => by simp [combineInto]
  | (k0, v0) :: l, acc, ln, x => by
      intro hx
      have hx2 := keys_combineInto l (setRow (setRow acc k0 v0) (ln ++ "." ++ k0) v0) ln x hx
      rcases hx2 with hx2 | ⟨k, hk, hor⟩
      · rcases keys_setRow_mem _ _ _ _ hx2 with h2 | h2
        · rcases keys_setRow_mem _ _ _ _ h2 with h3 | h3
          · exact Or.inl h3
          · exact Or.inr ⟨k0, by simp, Or.inl h3⟩
        · exact Or.inr ⟨k0, by simp, Or.inr h2⟩
      · exact Or.inr ⟨k, by simp [hk], hor⟩

/-- C9: the LEFT JOIN of `performJoin`.  First conjunct: the claim's
concrete scenario through the full SELECT pipeline — `SELECT * FROM users
LEFT JOIN posts ON users.id = posts.user_id` returns one joined row for
user 1 (both sides' columns present unqualified and qualified; the
colliding unqualified `id` is last-writer-wins) and one users-only row for
user 2 whose keys are exactly the left side's, with no posts keys.
Second conjunct: in general, each left row emits one combined row per
matching right row, and a left row with no match emits exactly one row
with only its own (unqualified and qualified) columns.  Third conjunct:
every key of such an unmatched row is a left-side key, bare or qualified
by the left table's name — right-side keys are entirely absent. -/
theorem left_join_emits_matches_and_unmatched_left :
    ((Database.select joinDb joinQuery).2 = .ok
       { success := true,
         rows := some
           [[("id", .int 10), ("users.id", .int 1), ("name", .str "a"),
             ("users.name", .str "a"), ("posts.id", .int 10),
             ("user_id", .int 1), ("posts.user_id", .int 1)],
            [("id", .int 2), ("users.id", .int 2), ("name", .str "b"),
             ("users.name", .str "b")]],
         rowCount := some 2,
         columns := some ["id", "users.id", "name", "users.name", "posts.id",
                          "user_id", "posts.user_id"] }) ∧
    (∀ (L R : List Row) (tbl lc rc ln rn : String),
       performJoin L R ⟨.LEFT, tbl, lc, rc⟩ ln rn =
         L.flatMap fun l =>
           if (R.filter fun r => jsEqOptOpt (lookupRow l lc) (lookupRow r rc)).isEmpty
           then [combineInto [] ln l]
           else (R.filter fun r => jsEqOptOpt (lookupRow l lc) (lookupRow r rc)).map
                  fun r => combineInto (combineInto [] ln l) rn r) ∧
    (∀ (l : Row) (ln : String) (x : String),
       x ∈ (combineInto [] ln l).map Prod.fst →
       ∃ k ∈ l.map Prod.fst, x = k ∨ x = ln ++ "." ++ k) := by
  refine ⟨rfl, ?_, ?_⟩
  · intro L R tbl lc rc ln rn
    have h0 : performJoin L R ⟨.LEFT, tbl, lc, rc⟩ ln rn =
        L.foldl
          (fun acc l =>
            acc ++ (joinMatches l R lc rc ln rn).1 ++
              (if ¬ (joinMatches l R lc rc ln rn).2 ∧ true then
                 [combineInto [] ln l]
               else [])) [] := rfl
    have hfun :
        (fun (acc : List Row) (l : Row) =>
            acc ++ (joinMatches l R lc rc ln rn).1 ++
              (if ¬ (joinMatches l R lc rc ln rn).2 ∧ true then
                 [combineInto [] ln l]
               else [])) =
        (fun (acc : List Row) (l : Row) =>
            acc ++ ((joinMatches l R lc rc ln rn).1 ++
              (if ¬ (joinMatches l R lc rc ln rn).2 ∧ true then
                 [combineInto [] ln l]
               else []))) := by
      funext acc l
      rw [List.append_assoc]
    rw [h0, hfun, foldl_append_flatMap]
    rw [List.nil_append]
    apply congrArg (List.flatMap L)
    funext l
    rw [joinMatches_eq]
    by_cases he : (R.filter fun r => jsEqOptOpt (lookupRow l lc) (lookupRow r rc)) = []
    · simp [he]
    · simp [he]
  · intro l ln x hx
    rcases keys_combineInto l [] ln x hx with h | h
    · simp at h
    · exact h

/-- At end of input the tuple-value loop of `parseInsert` makes no
progress: `peek()` is null (which is not `')'`), `next()` consumes
nothing, and the state repeats; so the loop diverges for every fuel. -/
theorem insertValuesRowLoop_eof_div :
    ∀ (m : Nat) (row : List RowValue),
      insertValuesRowLoop m badInsertEofTok row = .div
  | 0, _ => rfl
  | m + 1, row => by
      have h : insertValuesRowLoop (m + 1) badInsertEofTok row =
          insertValuesRowLoop m badInsertEofTok row := rfl
      rw [h]
      exact insertValuesRowLoop_eof_div m row

/-- The tuple-list loop of `parseInsert` on `badInsertSql` diverges for
every fuel: its first iteration consumes `(1` and then spins at end of
input. -/
theorem insertValuesOuterLoop_badInsert_div :
    ∀ (n : Nat), insertValuesOuterLoop n badInsertLoopTok [] = .div
  | 0 => rfl
  | n + 1 => by
      have h1 : insertValuesOuterLoop (n + 1) badInsertLoopTok [] =
          (match insertValuesRowLoop (n + 1) (⟨badInsertChars, 22⟩ : Tok) [] with
           | .err e => .err e
           | .div => .div
           | .ok row t =>
               let t2 := (t.next).1
               let values := ([] : List (List RowValue)) ++ [row]
               let (t3, pk2) := t2.peek
               if pk2 = some "," then insertValuesOuterLoop n t3 values
               else .ok values t3) := rfl
      have h2 : insertValuesRowLoop (n + 1) (⟨badInsertChars, 22⟩ : Tok) [] = .div := by
        have hstep : insertValuesRowLoop (n + 1) (⟨badInsertChars, 22⟩ : Tok) [] =
            insertValuesRowLoop n badInsertEofTok [RowValue.int 1] := rfl
        rw [hstep]
        exact insertValuesRowLoop_eof_div n _
      rw [h1, h2]

/-- `parse` on `badInsertSql` yields `div` for every fuel: the source
parser never terminates on this input. -/
theorem parse_badInsert_div : ∀ (n : Nat), parse n badInsertSql = .div
  | 0 => rfl
  | n + 1 => by
      have hpi : parseInsert (n + 1) (⟨badInsertChars, 0⟩ : Tok) =
          (match insertValuesOuterLoop (n + 1) badInsertLoopTok [] with
           | .err e => .err e
           | .div => .div
           | .ok values t =>
               PRes.ok { into := "t", columns := [], values := values } t) := rfl
      rw [insertValuesOuterLoop_badInsert_div (n + 1)] at hpi
      have hpi2 : parseInsert (n + 1) (⟨badInsertChars, 0⟩ : Tok) = .div := hpi
      have hparse : parse (n + 1) badInsertSql =
          (parseInsert (n + 1) (⟨badInsertChars, 0⟩ : Tok)).map ParsedQuery.insert := rfl
      rw [hparse, hpi2]
      rfl

/-- C1: `execute` does not return a `QueryResult` for every input SQL
string: on `INSERT INTO t VALUES (1` the parser's tuple-value loop never
terminates (second conjunct: the loop consumes no fuel-independent
progress — one more unit of fuel yields the same still-running state), so
`execute` diverges — it yields `none` at every fuel, for every database
state.  (The try/catch at the boundary converts thrown errors, but a hang
throws nothing.) -/
theorem execute_never_returns_on_unterminated_insert :
    (∀ (fuel : Nat) (db : Database), Database.execute fuel db badInsertSql = none) ∧
    (∀ (fuel : Nat) (row : List RowValue),
       insertValuesRowLoop (fuel + 1) badInsertEofTok row =
         insertValuesRowLoop fuel badInsertEofTok row) := by
  constructor
  · intro fuel db
    have hp := parse_badInsert_div fuel
    unfold Database.execute
    rw [hp]
  · intro fuel row
    rfl
